import Mathlib

/-!
Verification of the ALUR ETL pipeline (openEHR → FHIR) against its
natural-language specification.

The Python sources are shallowly embedded: JSON-like dynamic values become
the inductive type `JValue`; rows and templates are association lists;
HTTP servers and the database are explicit state records; machine-level
byte strings are `List Nat` with values < 256.  Every definition mirrors a
function of the repository (file and function named in its doc comment),
except the few marked `Modelled from the spec:` which stand for
configuration files that are not part of the source tree.
-/

namespace ALUR

/-- Dynamic JSON-like values manipulated by the pipeline
(Python dicts, lists, strings, numbers, booleans and None). -/
inductive JValue where
  | null : JValue
  | str : String → JValue
  | num : Int → JValue
  | bool : Bool → JValue
  | arr : List JValue → JValue
  | obj : List (String × JValue) → JValue
deriving Repr

mutual

/-- Structural boolean equality on `JValue` (Python `==`). -/
def beqJ : JValue → JValue → Bool
  | .null, .null => true
  | .str a, .str b => a == b
  | .num a, .num b => a == b
  | .bool a, .bool b => a == b
  | .arr a, .arr b => beqArrJ a b
  | .obj a, .obj b => beqObjJ a b
  | _, _ => false

/-- Structural boolean equality on lists of `JValue`. -/
def beqArrJ : List JValue → List JValue → Bool
  | [], [] => true
  | a :: as, b :: bs => beqJ a b && beqArrJ as bs
  | _, _ => false

/-- Structural boolean equality on association lists of `JValue`. -/
def beqObjJ : List (String × JValue) → List (String × JValue) → Bool
  | [], [] => true
  | (k, v) :: r, (k2, v2) :: r2 => k == k2 && beqJ v v2 && beqObjJ r r2
  | _, _ => false

end

instance : BEq JValue := ⟨beqJ⟩

mutual

theorem beqJ_iff (a b : JValue) : beqJ a b = true ↔ a = b := by
  cases a <;> cases b <;>
    simp only [beqJ, beqArrJ, beqObjJ, beq_iff_eq, JValue.str.injEq,
      JValue.num.injEq, JValue.bool.injEq, JValue.arr.injEq, JValue.obj.injEq,
      Bool.false_eq_true, false_iff, reduceCtorEq, not_false_eq_true]
  case arr.arr x y => exact beqArrJ_iff x y
  case obj.obj x y => exact beqObjJ_iff x y

theorem beqArrJ_iff (x y : List JValue) : beqArrJ x y = true ↔ x = y := by
  match x, y with
  | [], [] => simp [beqArrJ]
  | [], _ :: _ => simp [beqArrJ]
  | _ :: _, [] => simp [beqArrJ]
  | a :: as, b :: bs =>
    simp only [beqArrJ, Bool.and_eq_true, List.cons.injEq]
    exact and_congr (beqJ_iff a b) (beqArrJ_iff as bs)

theorem beqObjJ_iff (x y : List (String × JValue)) : beqObjJ x y = true ↔ x = y := by
  match x, y with
  | [], [] => simp [beqObjJ]
  | [], _ :: _ => simp [beqObjJ]
  | _ :: _, [] => simp [beqObjJ]
  | (k, v) :: r, (k2, v2) :: r2 =>
    simp only [beqObjJ, Bool.and_eq_true, List.cons.injEq, Prod.mk.injEq,
      beq_iff_eq, and_assoc]
    exact and_congr Iff.rfl (and_congr (beqJ_iff v v2) (beqObjJ_iff r r2))

end

instance : DecidableEq JValue := fun a b => decidable_of_iff _ (beqJ_iff a b)

/-- Python truthiness (`bool(v)`) for `JValue`. -/
def pyTruthy : JValue → Bool
  | .null => false
  | .str s => s ≠ ""
  | .num n => n ≠ 0
  | .bool b => b
  | .arr l => !l.isEmpty
  | .obj l => !l.isEmpty

/-- Membership test for the empty-equivalent list
`[None, "", "None", "null", {}, [], [{}]]` used by `clean_section`
(src/application/utils/mapper.py, dict/list comprehension guards). -/
def isEmptyish (v : JValue) : Bool :=
  v == .null || v == .str "" || v == .str "None" || v == .str "null" ||
  v == .obj [] || v == .arr [] || v == .arr [.obj []]

/-- Membership test for the scalar fallthrough list
`[None, "", "None", "null", {}]` of `clean_section`. -/
def isEmptyishScalar (v : JValue) : Bool :=
  v == .null || v == .str "" || v == .str "None" || v == .str "null" ||
  v == .obj []

mutual

/-- `clean_section` (src/application/utils/mapper.py lines 82-98):
recursively drop empty-equivalent entries; an emptied dict or list
collapses to `None` (here `JValue.null`). -/
def cleanSection : JValue → JValue
  | .obj kvs =>
      let c := cleanObjEntries kvs
      if c.isEmpty then .null else .obj c
  | .arr items =>
      let c := cleanArrItems items
      if c.isEmpty then .null else .arr c
  | v => if isEmptyishScalar v then .null else v

/-- Dict-comprehension part of `clean_section`: keep `(k, clean_section v)`
when `clean_section v` is not empty-equivalent. -/
def cleanObjEntries : List (String × JValue) → List (String × JValue)
  | [] => []
  | (k, v) :: rest =>
      let c := cleanSection v
      if isEmptyish c then cleanObjEntries rest
      else (k, c) :: cleanObjEntries rest

/-- List-comprehension part of `clean_section`. -/
def cleanArrItems : List JValue → List JValue
  | [] => []
  | v :: rest =>
      let c := cleanSection v
      if isEmptyish c then cleanArrItems rest
      else c :: cleanArrItems rest

end

mutual

/-- A value contains no empty-equivalent leaf: no `null`, `""`, `"None"`,
`"null"`, `{}` or `[]` anywhere inside it (the property of spec §8.3). -/
def noBadLeaf : JValue → Bool
  | .null => false
  | .str s => !(s == "" || s == "None" || s == "null")
  | .num _ => true
  | .bool _ => true
  | .arr l => !l.isEmpty && noBadLeafArr l
  | .obj kvs => !kvs.isEmpty && noBadLeafObj kvs

/-- `noBadLeaf` over the elements of a list. -/
def noBadLeafArr : List JValue → Bool
  | [] => true
  | v :: rest => noBadLeaf v && noBadLeafArr rest

/-- `noBadLeaf` over the values of an object. -/
def noBadLeafObj : List (String × JValue) → Bool
  | [] => true
  | (_, v) :: rest => noBadLeaf v && noBadLeafObj rest

end

/-! ### Association-list records (Python dicts) -/

/-- `d.get(k)`: first binding of `k` in an association list. -/
def recGet (r : List (String × JValue)) (k : String) : Option JValue :=
  (r.find? (fun p => p.fst == k)).map Prod.snd

/-- `k in d`. -/
def recHas (r : List (String × JValue)) (k : String) : Bool :=
  (r.find? (fun p => p.fst == k)).isSome

/-- `d[k] = v`: update in place if the key exists (keeping its position,
as Python dicts do), else append. -/
def recSet : List (String × JValue) → String → JValue → List (String × JValue)
  | [], k, v => [(k, v)]
  | (k0, v0) :: rest, k, v =>
      if k0 == k then (k0, v) :: rest else (k0, v0) :: recSet rest k v

/-! ### Jinja2 template rendering, restricted to plain `\x7b\x7bvar\x7d\x7d`
substitution (the only form the repository's mapping templates use;
spec §9 "Template rendering" describes exactly this restriction). -/

mutual

/-- Python `repr(value)`: strings quoted, `None`, capitalised booleans,
containers recursively. -/
def pyRepr : JValue → String
  | .null => "None"
  | .str s => "\x27" ++ s ++ "\x27"
  | .num n => toString n
  | .bool b => if b then "True" else "False"
  | .arr l => "[" ++ pyReprArr l ++ "]"
  | .obj kvs => "\x7b" ++ pyReprObj kvs ++ "\x7d"

/-- `repr` of list elements, comma-separated. -/
def pyReprArr : List JValue → String
  | [] => ""
  | [v] => pyRepr v
  | v :: rest => pyRepr v ++ ", " ++ pyReprArr rest

/-- `repr` of dict items, comma-separated. -/
def pyReprObj : List (String × JValue) → String
  | [] => ""
  | [(k, v)] => "\x27" ++ k ++ "\x27: " ++ pyRepr v
  | (k, v) :: rest => "\x27" ++ k ++ "\x27: " ++ pyRepr v ++ ", " ++ pyReprObj rest

end

/-- How Jinja2 stringifies a context value interpolated into the output
(`str(value)` in Python): strings verbatim, everything else as `repr`
(which agrees with `str` on `None`, numbers, booleans and containers
of strings). -/
def pyStr : JValue → String
  | .str s => s
  | v => pyRepr v

/-- ASCII lower-casing of one character (`str.lower()`; the repository's
values are ASCII). -/
def lcChar (c : Char) : Char :=
  if 65 ≤ c.toNat ∧ c.toNat ≤ 90 then Char.ofNat (c.toNat + 32) else c

/-- ASCII `str.lower()`. -/
def lowerAscii (s : String) : String := String.mk (s.data.map lcChar)

/-- Python whitespace for `str.strip()`. -/
def isSpaceChar (c : Char) : Bool :=
  c == ' ' || c == '\t' || c == '\n' || c == '\r' || c == '\x0b' || c == '\x0c'

/-- `str.strip()`. -/
def pyStrip (s : String) : String :=
  String.mk (((s.data.dropWhile isSpaceChar).reverse.dropWhile isSpaceChar).reverse)

/-- `str.startswith(p)`. -/
def strStarts (s p : String) : Bool := p.data.isPrefixOf s.data

/-- Characters allowed in a template variable name. -/
def isIdentChar (c : Char) : Bool := c.isAlphanum || c == '_'

/-- Scan of `Template(s).render(ctx)` restricted to variable substitution:
`\x7b\x7b name \x7d\x7d` is replaced by the stringified context value
(an undefined name renders as the empty string, Jinja2's default);
an unterminated or non-identifier directive raises
`TemplateSyntaxError`, modelled as `none`. -/
def renderChars (ctx : List (String × JValue)) :
    Nat → List Char → Option (List Char)
  | _, [] => some []
  | 0, _ :: _ => none
  | fuel + 1, '\x7b' :: '\x7b' :: rest =>
      let inner := rest.takeWhile (fun c => c ≠ '\x7d')
      match rest.drop inner.length with
      | '\x7d' :: '\x7d' :: rest2 =>
          let name := pyStrip (String.mk inner)
          if name ≠ "" ∧ name.data.all isIdentChar then
            match renderChars ctx fuel rest2 with
            | none => none
            | some out =>
                let repl := match recGet ctx name with
                  | some v => pyStr v
                  | none => ""
                some (repl.data ++ out)
          else none
      | _ => none
  | fuel + 1, c :: rest => (renderChars ctx fuel rest).map (c :: ·)

/-- `Template(s).render(resource_data)` as used by `resolve_value`.
The fuel equals the template length; every step of the scan consumes at
least one character, so it never runs out on a reachable path. -/
def renderTemplate (ctx : List (String × JValue)) (s : String) : Option String :=
  (renderChars ctx s.data.length s.data).map (fun cs => String.mk cs)

mutual

/-- `resolve_value` (src/application/utils/mapper.py lines 104-119):
strings are rendered (an empty render becomes `None` via `or None`, a
template error is caught and becomes `None`), dicts and lists recurse,
other scalars pass through. -/
def resolveValue (ctx : List (String × JValue)) : JValue → JValue
  | .str s =>
      match renderTemplate ctx s with
      | none => .null
      | some r => if r = "" then .null else .str r
  | .obj kvs => .obj (resolveValueObj ctx kvs)
  | .arr items => .arr (resolveValueArr ctx items)
  | v => v

/-- `resolve_value` over dict entries. -/
def resolveValueObj (ctx : List (String × JValue)) :
    List (String × JValue) → List (String × JValue)
  | [] => []
  | (k, v) :: rest => (k, resolveValue ctx v) :: resolveValueObj ctx rest

/-- `resolve_value` over list items. -/
def resolveValueArr (ctx : List (String × JValue)) : List JValue → List JValue
  | [] => []
  | v :: rest => resolveValue ctx v :: resolveValueArr ctx rest

end

/-! ### Python `datetime.strptime` for the two formats the repository uses -/

/-- Proleptic-Gregorian leap year (Python `calendar.isleap`). -/
def isLeapYear (y : Nat) : Bool :=
  (y % 4 == 0 && y % 100 != 0) || y % 400 == 0

/-- Days in a month, as validated by the `datetime` constructor. -/
def daysInMonth (y m : Nat) : Nat :=
  if m == 2 then (if isLeapYear y then 29 else 28)
  else if m == 4 || m == 6 || m == 9 || m == 11 then 30
  else 31

/-- A parsed naive `datetime` (microseconds dropped, as `strftime` without
`%f` never prints them). -/
structure PyDateTime where
  year : Nat
  month : Nat
  day : Nat
  hour : Nat
  minute : Nat
  second : Nat
deriving DecidableEq, Repr

/-- Bounds enforced by `datetime.strptime` (regex bounds on each field and
the `datetime` constructor's range checks). -/
def validDateTime (t : PyDateTime) : Bool :=
  1 ≤ t.year && t.year ≤ 9999 && 1 ≤ t.month && t.month ≤ 12 &&
  1 ≤ t.day && t.day ≤ daysInMonth t.year t.month &&
  t.hour ≤ 23 && t.minute ≤ 59 && t.second ≤ 59

/-- ASCII decimal digit. -/
def isDigitChar (c : Char) : Bool := 48 ≤ c.toNat && c.toNat ≤ 57

/-- Leading decimal digits of a character list with their value. -/
def takeNat (cs : List Char) : Nat × Nat × List Char :=
  match cs with
  | c :: rest =>
      if isDigitChar c then
        let (n, count, rem) := takeNat rest
        ((c.toNat - 48) * 10 ^ count + n, count + 1, rem)
      else (0, 0, cs)
  | [] => (0, 0, [])

/-- Match a numeric field of at most `maxDigits` digits (strptime accepts
1 to 2 digits for `%m %d %H %M %S`, 1 to 4 for `%Y`, 1 to 6 for `%f`). -/
def parseNatField (maxDigits : Nat) (cs : List Char) : Option (Nat × List Char) :=
  let (n, count, rem) := takeNat cs
  if 1 ≤ count ∧ count ≤ maxDigits then some (n, rem) else none

/-- Match one literal character. -/
def parseLit (c : Char) (cs : List Char) : Option (List Char) :=
  match cs with
  | x :: rest => if x == c then some rest else none
  | [] => none

/-- The `%Y-%m-%dT%H:%M:%S` prefix of both formats: the parsed fields and
the unconsumed remainder. -/
def parseDatePrefix (cs : List Char) : Option (PyDateTime × List Char) := do
  let (y, cs) ← parseNatField 4 cs
  let cs ← parseLit '-' cs
  let (mo, cs) ← parseNatField 2 cs
  let cs ← parseLit '-' cs
  let (d, cs) ← parseNatField 2 cs
  let cs ← parseLit 'T' cs
  let (h, cs) ← parseNatField 2 cs
  let cs ← parseLit ':' cs
  let (mi, cs) ← parseNatField 2 cs
  let cs ← parseLit ':' cs
  let (sec, cs) ← parseNatField 2 cs
  pure (⟨y, mo, d, h, mi, sec⟩, cs)

/-- `datetime.strptime(s, "%Y-%m-%dT%H:%M:%S")`, or with a trailing
`.%f` when `withFrac` is true; `none` is the `ValueError`. -/
def strptimeIso (withFrac : Bool) (s : String) : Option PyDateTime := do
  let (t, cs) ← parseDatePrefix s.data
  let cs ← (if withFrac then do
      let cs ← parseLit '.' cs
      let (_, cs) ← parseNatField 6 cs
      pure cs
    else pure cs)
  if cs = [] then
    if validDateTime t then some t else none
  else none

/-- Zero-pad a number to `w` digits (`strftime` field output). -/
def padNum (w n : Nat) : String :=
  let s := toString n
  let pad := w - s.length
  String.mk (List.replicate pad '0') ++ s

/-- `dt.astimezone(timezone.utc).strftime("%Y-%m-%dT%H:%M:%SZ")` for a
naive datetime in a UTC-local process (the deployment's container runs
with a UTC clock, so `astimezone` is the identity on the fields). -/
def strftimeZ (t : PyDateTime) : String :=
  padNum 4 t.year ++ "-" ++ padNum 2 t.month ++ "-" ++ padNum 2 t.day ++
  "T" ++ padNum 2 t.hour ++ ":" ++ padNum 2 t.minute ++ ":" ++ padNum 2 t.second ++ "Z"

/-- `fix_fhir_datetime` (src/application/utils/mapper.py lines 19-28):
parses ONLY the fractional-second format `%Y-%m-%dT%H:%M:%S.%f`;
anything else is a `ValueError` and yields `None`. -/
def fixFhirDatetime (s : String) : Option String :=
  if s = "" || lowerAscii s == "none" || lowerAscii s == "null" then none
  else match strptimeIso true s with
    | some t => some (strftimeZ t)
    | none => none

/-- `fix_fhir_datetime` (src/application/utils/mapper_consent.py lines
16-28): tries the fractional format first, then falls back to
`%Y-%m-%dT%H:%M:%S` without fraction. -/
def fixFhirDatetimeConsent (s : String) : Option String :=
  if s = "" || lowerAscii s == "none" || lowerAscii s == "null" then none
  else match strptimeIso true s with
    | some t => some (strftimeZ t)
    | none => match strptimeIso false s with
      | some t => some (strftimeZ t)
      | none => none

/-- `fix_fhir_datetime` applied to a dynamic value, as the mappers do:
a falsy value short-circuits to `None`; a truthy non-string crashes with
`AttributeError` on `.lower()` (modelled as `none` in the outer
`Option`). -/
def fixFhirDatetimeJ (v : JValue) : Option JValue :=
  if !pyTruthy v then some .null
  else match v with
    | .str s => some (match fixFhirDatetime s with
        | some r => .str r
        | none => .null)
    | _ => none

/-- The consent variant of `fixFhirDatetimeJ`. -/
def fixFhirDatetimeConsentJ (v : JValue) : Option JValue :=
  if !pyTruthy v then some .null
  else match v with
    | .str s => some (match fixFhirDatetimeConsent s with
        | some r => .str r
        | none => .null)
    | _ => none

/-! ### System-URI canonicalisation and field ordering (mapper.py) -/

/-- The terminology display-name table of `ensure_valid_uri`
(src/application/utils/mapper.py lines 39-48). -/
def systemMappings : List (String × String) :=
  [("SNOMED Clinical Terms", "http://snomed.info/sct"),
   ("LOINC", "http://loinc.org"),
   ("RxNorm", "http://www.nlm.nih.gov/research/umls/rxnorm"),
   ("OPS", "http://fhir.de/CodeSystem/bfarm/ops"),
   ("ICD-10", "http://hl7.org/fhir/sid/icd-10"),
   ("ICD-10-GM", "http://fhir.de/CodeSystem/bfarm/icd-10-gm"),
   ("ATC", "http://www.whocc.no/atc"),
   ("UCUM", "http://unitsofmeasure.org")]

/-- `ensure_valid_uri` (src/application/utils/mapper.py lines 34-56). -/
def ensureValidUri (v : JValue) : JValue :=
  if !pyTruthy v then .str ""
  else match v with
    | .str s =>
        if lowerAscii s == "none" || lowerAscii s == "null" then .str ""
        else match (systemMappings.find? (fun p => p.fst == s)) with
          | some p => .str p.snd
          | none =>
              if !(strStarts s "http://" || strStarts s "https://") then
                .str ("http://" ++ s)
              else .str s
    | w => w

/-- `fix_coding_system`: rewrite `system` in each coding dict of a list. -/
def fixCodingList (codings : List JValue) : List JValue :=
  codings.map (fun c => match c with
    | .obj kv => if recHas kv "system" then
        .obj (recSet kv "system" (ensureValidUri ((recGet kv "system").getD .null)))
      else .obj kv
    | w => w)

/-- Rewrite one candidate entry of `fix_system_uris`: a dict with a
`coding` list, or a list of such dicts. -/
def fixSystemEntry (v : JValue) : JValue :=
  match v with
  | .obj kv =>
      (match recGet kv "coding" with
       | some (.arr codings) => .obj (recSet kv "coding" (.arr (fixCodingList codings)))
       | _ => .obj kv)
  | .arr elems =>
      .arr (elems.map (fun e => match e with
        | .obj kv =>
            (match recGet kv "coding" with
             | some (.arr codings) => .obj (recSet kv "coding" (.arr (fixCodingList codings)))
             | _ => .obj kv)
        | w => w))
  | w => w

/-- `fix_system_uris` (src/application/utils/mapper.py lines 125-142):
canonicalise `coding[].system` under the six listed keys. -/
def fixSystemUris (resource : List (String × JValue)) : List (String × JValue) :=
  ["code", "category", "reasonCode", "severity", "outcome", "statusReason"].foldl
    (fun res key => match recGet res key with
      | some item => recSet res key (fixSystemEntry item)
      | none => res)
    resource

/-- `validate_required_fields` (src/application/utils/mapper.py lines
62-76): a required field is missing when absent, `None`, `"None"`,
`"null"`, `""`, `{}`, or a list that is empty or all-falsy. -/
def requiredFieldMissing (row : List (String × JValue)) (field : String) : Bool :=
  match recGet row field with
  | none => true
  | some (.arr l) => l.isEmpty || l.all (fun v => !pyTruthy v)
  | some v =>
      v == .null || v == .str "None" || v == .str "null" || v == .str "" ||
      v == .obj []

/-- `validate_required_fields` returns true when no field is missing. -/
def validateRequiredFields (row : List (String × JValue)) (required : List String) : Bool :=
  required.all (fun f => !requiredFieldMissing row f)

/-- First loop of `enforce_field_order` (src/application/utils/mapper.py
lines 148-164): `for field in mappings: if field in resource:
ordered[field] = resource[field]`. -/
def pickTemplateKeys (res : List (String × JValue)) :
    List String → List (String × JValue) → List (String × JValue)
  | [], acc => acc
  | f :: rest, acc =>
      pickTemplateKeys res rest
        (match recGet res f with
         | some v => recSet acc f v
         | none => acc)

/-- Second loop of `enforce_field_order`: `for field in resource: if field
not in ordered: ordered[field] = resource[field]`. -/
def appendRemaining : List (String × JValue) → List (String × JValue) →
    List (String × JValue)
  | [], acc => acc
  | p :: rest, acc =>
      appendRemaining rest (if recHas acc p.fst then acc else acc ++ [p])

/-- `enforce_field_order` (src/application/utils/mapper.py lines 148-164):
keys named by the template first, in template order, then the remaining
keys in insertion order.  `tkeys = []` models the missing-mappings case
where the resource is returned unchanged. -/
def enforceFieldOrder (tkeys : List String) (res : List (String × JValue)) :
    List (String × JValue) :=
  if tkeys.isEmpty then res
  else appendRemaining res (pickTemplateKeys res tkeys [])

/-- The five date-bearing keys of `map_and_clean_resource`
(src/application/utils/mapper.py line 184); note `dateTime` is NOT
among them. -/
def mapperDateFields : List String :=
  ["recordedDate", "onsetDateTime", "abatementDateTime", "effectiveDateTime",
   "performedDateTime"]

/-- The date-normalisation loop of `map_and_clean_resource`: each present
date field is replaced by `fix_fhir_datetime` of its value; an uncaught
exception anywhere aborts (outer `none`). -/
def applyDateFixes (fields : List String) (mapped : List (String × JValue)) :
    Option (List (String × JValue)) :=
  fields.foldlM
    (fun acc f => match recGet acc f with
      | some v => (fixFhirDatetimeJ v).map (fun r => recSet acc f r)
      | none => some acc)
    mapped

/-- The `resourceType` string a cleaned resource carries
(`cleaned.get("resourceType", "")`, with a non-string value behaving as
a registry miss). -/
def resourceTypeOf (kvs : List (String × JValue)) : String :=
  match recGet kvs "resourceType" with
  | some (.str s) => s
  | _ => ""

/-- `map_and_clean_resource` (src/application/utils/mapper.py lines
171-192).  `registry` gives, per resource type, the template key order
used by `enforce_field_order` (the `RESOURCE_FILES` configuration);
`none` models an uncaught Python exception. -/
def mapAndCleanResource (registry : String → List String)
    (mappings : List (String × JValue)) (required : List String)
    (row : List (String × JValue)) : Option JValue :=
  if !validateRequiredFields row required then some (.obj [])
  else
    let mapped := resolveValueObj row mappings
    match applyDateFixes mapperDateFields mapped with
    | none => none
    | some dated =>
        let fixed := fixSystemUris dated
        match cleanSection (.obj fixed) with
        | .obj kvs => some (.obj (enforceFieldOrder (registry (resourceTypeOf kvs)) kvs))
        | _ => some (.obj [])

/-! ### The prune invariant (claim about §8.3): `clean_section` output has
no empty-equivalent leaf -/

/-- The Mapper's output is an object; it satisfies the invariant when none
of its values contains an empty-equivalent leaf (the empty object `{}`
returned on a failed required-field check has no values at all). -/
def resourceOk : JValue → Bool
  | .obj kvs => noBadLeafObj kvs
  | v => noBadLeaf v

theorem noBadLeafObj_iff (l : List (String × JValue)) :
    noBadLeafObj l = true ↔ ∀ p ∈ l, noBadLeaf p.snd = true := by
  induction l with
  | nil => simp [noBadLeafObj]
  | cons p rest ih =>
    obtain ⟨k, v⟩ := p
    simp [noBadLeafObj, ih, Bool.and_eq_true]

theorem isEmptyish_null : isEmptyish .null = true := rfl

mutual

theorem cleanSection_good (v : JValue) :
    cleanSection v = .null ∨ noBadLeaf (cleanSection v) = true := by
  cases v with
  | obj kvs =>
    rw [cleanSection]
    by_cases h : (cleanObjEntries kvs).isEmpty
    · left; simp [h]
    · right
      simp only [h, Bool.false_eq_true, if_false, noBadLeaf, Bool.and_eq_true,
        Bool.not_eq_true]
      exact ⟨by simp [h], cleanObjEntries_good kvs⟩
  | arr items =>
    rw [cleanSection]
    by_cases h : (cleanArrItems items).isEmpty
    · left; simp [h]
    · right
      simp only [h, Bool.false_eq_true, if_false, noBadLeaf, Bool.and_eq_true,
        Bool.not_eq_true]
      exact ⟨by simp [h], cleanArrItems_good items⟩
  | null => left; rfl
  | str s =>
    simp only [cleanSection]
    by_cases h : isEmptyishScalar (.str s)
    · left; simp [h]
    · right
      rw [if_neg h]
      have h2 : ¬ (s = "" ∨ s = "None" ∨ s = "null") := by
        intro hc
        apply h
        rcases hc with hc | hc | hc <;> subst hc <;> decide
      simp only [noBadLeaf]
      simp only [not_or] at h2
      simp [h2.1, h2.2.1, h2.2.2]
  | num n =>
    simp only [cleanSection]
    by_cases h : isEmptyishScalar (.num n)
    · left; simp [h]
    · right; rw [if_neg h]; rfl
  | bool b =>
    simp only [cleanSection]
    by_cases h : isEmptyishScalar (.bool b)
    · left; simp [h]
    · right; rw [if_neg h]; rfl

theorem cleanObjEntries_good (kvs : List (String × JValue)) :
    noBadLeafObj (cleanObjEntries kvs) = true := by
  match kvs with
  | [] => rfl
  | (k, v) :: rest =>
    rw [cleanObjEntries]
    by_cases h : isEmptyish (cleanSection v)
    · simpa [h] using cleanObjEntries_good rest
    · have hv : noBadLeaf (cleanSection v) = true := by
        rcases cleanSection_good v with hnull | hgood
        · exact absurd (hnull ▸ isEmptyish_null) (by simpa using h)
        · exact hgood
      simp [h, noBadLeafObj, hv, cleanObjEntries_good rest]

theorem cleanArrItems_good (items : List JValue) :
    noBadLeafArr (cleanArrItems items) = true := by
  match items with
  | [] => rfl
  | v :: rest =>
    rw [cleanArrItems]
    by_cases h : isEmptyish (cleanSection v)
    · simpa [h] using cleanArrItems_good rest
    · have hv : noBadLeaf (cleanSection v) = true := by
        rcases cleanSection_good v with hnull | hgood
        · exact absurd (hnull ▸ isEmptyish_null) (by simpa using h)
        · exact hgood
      simp [h, noBadLeafArr, hv, cleanArrItems_good rest]

end

theorem noBadLeafObj_append (a b : List (String × JValue)) :
    noBadLeafObj (a ++ b) = (noBadLeafObj a && noBadLeafObj b) := by
  induction a with
  | nil => simp [noBadLeafObj]
  | cons p rest ih =>
    obtain ⟨k, v⟩ := p
    simp [noBadLeafObj, ih, Bool.and_assoc]

theorem noBadLeafObj_recSet (l : List (String × JValue)) (k : String)
    (v : JValue) (hl : noBadLeafObj l = true) (hv : noBadLeaf v = true) :
    noBadLeafObj (recSet l k v) = true := by
  induction l with
  | nil => simp [recSet, noBadLeafObj, hv]
  | cons p rest ih =>
    obtain ⟨k0, v0⟩ := p
    simp only [noBadLeafObj, Bool.and_eq_true] at hl
    by_cases hk : (k0 == k) = true
    · simp [recSet, hk, noBadLeafObj, hv, hl.2]
    · simp [recSet, hk, noBadLeafObj, hl.1, ih hl.2]

theorem recGet_noBad (res : List (String × JValue)) (f : String) (v : JValue)
    (hres : noBadLeafObj res = true) (h : recGet res f = some v) :
    noBadLeaf v = true := by
  unfold recGet at h
  cases hf : List.find? (fun p => p.fst == f) res with
  | none => rw [hf] at h; cases h
  | some p =>
      rw [hf] at h
      simp only [Option.map_some', Option.some.injEq] at h
      have hmem := List.mem_of_find?_eq_some hf
      exact h ▸ (noBadLeafObj_iff res).mp hres p hmem

theorem pickTemplateKeys_noBad (res : List (String × JValue))
    (hres : noBadLeafObj res = true) :
    ∀ (tkeys : List String) (acc : List (String × JValue)),
      noBadLeafObj acc = true →
      noBadLeafObj (pickTemplateKeys res tkeys acc) = true := by
  intro tkeys
  induction tkeys with
  | nil => intro acc hacc; simpa [pickTemplateKeys] using hacc
  | cons f rest ih =>
    intro acc hacc
    rw [pickTemplateKeys]
    cases hg : recGet res f with
    | none => exact ih acc (by simpa [hg] using hacc)
    | some v =>
        simp only [hg]
        exact ih _ (noBadLeafObj_recSet acc f v hacc (recGet_noBad res f v hres hg))

theorem appendRemaining_noBad :
    ∀ (rows acc : List (String × JValue)),
      noBadLeafObj rows = true → noBadLeafObj acc = true →
      noBadLeafObj (appendRemaining rows acc) = true := by
  intro rows
  induction rows with
  | nil => intro acc _ hacc; simpa [appendRemaining] using hacc
  | cons p rest ih =>
    intro acc hrows hacc
    obtain ⟨k, v⟩ := p
    simp only [noBadLeafObj, Bool.and_eq_true] at hrows
    rw [appendRemaining]
    by_cases hk : recHas acc k = true
    · rw [if_pos hk]
      exact ih acc hrows.2 hacc
    · rw [if_neg hk]
      refine ih _ hrows.2 ?_
      simp [noBadLeafObj_append, hacc, noBadLeafObj, hrows.1]

theorem enforceFieldOrder_noBad (tkeys : List String)
    (res : List (String × JValue)) (hres : noBadLeafObj res = true) :
    noBadLeafObj (enforceFieldOrder tkeys res) = true := by
  rw [enforceFieldOrder]
  by_cases ht : tkeys.isEmpty
  · simpa [ht] using hres
  · simp only [ht, Bool.false_eq_true, if_false]
    exact appendRemaining_noBad res _ hres
      (pickTemplateKeys_noBad res hres tkeys [] rfl)

/-- C9: every FHIR resource the Mapper returns satisfies the prune
invariant — no leaf value equal to `""`, `"None"`, `"null"`, `{}`, `[]`
or `null` anywhere in it, for every staging row, mapping template,
required-field list and field-order registry. -/
theorem mapper_output_has_no_empty_leaf (registry : String → List String)
    (mappings : List (String × JValue)) (required : List String)
    (row : List (String × JValue)) (r : JValue)
    (h : mapAndCleanResource registry mappings required row = some r) :
    resourceOk r = true := by
  rw [mapAndCleanResource] at h
  by_cases hv : validateRequiredFields row required
  · simp only [hv, Bool.not_true, Bool.false_eq_true, if_false] at h
    cases hdf : applyDateFixes mapperDateFields (resolveValueObj row mappings) with
    | none => rw [hdf] at h; cases h
    | some dated =>
      rw [hdf] at h
      simp only at h
      cases hclean : cleanSection (JValue.obj (fixSystemUris dated)) with
      | obj kvs =>
        rw [hclean] at h
        simp only [Option.some.injEq] at h
        subst h
        show noBadLeafObj (enforceFieldOrder _ kvs) = true
        rcases cleanSection_good (JValue.obj (fixSystemUris dated)) with hnull | hgood
        · rw [hclean] at hnull; cases hnull
        · rw [hclean] at hgood
          simp only [noBadLeaf, Bool.and_eq_true] at hgood
          exact enforceFieldOrder_noBad _ kvs hgood.2
      | null => rw [hclean] at h; simp only [Option.some.injEq] at h; subst h; rfl
      | str s => rw [hclean] at h; simp only [Option.some.injEq] at h; subst h; rfl
      | num n => rw [hclean] at h; simp only [Option.some.injEq] at h; subst h; rfl
      | bool b => rw [hclean] at h; simp only [Option.some.injEq] at h; subst h; rfl
      | arr items => rw [hclean] at h; simp only [Option.some.injEq] at h; subst h; rfl
  · simp only [hv, Bool.not_false, if_true, Option.some.injEq] at h
    subst h
    rfl

/-- Witness for C9 on a concrete template and row. -/
theorem mapper_output_has_no_empty_leaf_wit :
    resourceOk (.obj [("recordedDate", .str "2025-01-01T10:20:30Z")]) = true :=
  mapper_output_has_no_empty_leaf (fun _ => [])
    [("recordedDate", .str "\x7b\x7bd\x7d\x7d")] []
    [("d", .str "2025-01-01T10:20:30.5")]
    (.obj [("recordedDate", .str "2025-01-01T10:20:30Z")]) (by decide)

/-! ### Claim C8: datetime normalisation -/

theorem parseNatField_head (m : Nat) (cs : List Char) (n : Nat)
    (rem : List Char) (h : parseNatField m cs = some (n, rem)) :
    ∃ c rest, cs = c :: rest ∧ isDigitChar c = true := by
  cases cs with
  | nil => simp [parseNatField, takeNat] at h
  | cons c rest =>
    by_cases hd : isDigitChar c = true
    · exact ⟨c, rest, rfl, hd⟩
    · exfalso
      simp [parseNatField, takeNat, hd] at h

theorem strptime_head_digit (b : Bool) (s : String) (t : PyDateTime)
    (h : strptimeIso b s = some t) :
    ∃ c rest, s.data = c :: rest ∧ isDigitChar c = true := by
  cases hp : parseDatePrefix s.data with
  | none => rw [strptimeIso, hp] at h; cases h
  | some pr =>
    cases hy : parseNatField 4 s.data with
    | none => rw [parseDatePrefix, hy] at hp; cases hp
    | some q => exact parseNatField_head 4 s.data q.fst q.snd (by rw [← hy])

theorem strptime_false_parts (s : String) (t : PyDateTime)
    (h : strptimeIso false s = some t) :
    parseDatePrefix s.data = some (t, []) ∧ validDateTime t = true := by
  cases hp : parseDatePrefix s.data with
  | none => rw [strptimeIso, hp] at h; cases h
  | some pr =>
    obtain ⟨t0, cs⟩ := pr
    rw [strptimeIso, hp] at h
    cases cs with
    | cons c rest => simp at h
    | nil =>
      by_cases hval : validDateTime t0 = true
      · simp only [hval] at h
        simp at h
        obtain ⟨_, rfl⟩ := h
        exact ⟨rfl, hval⟩
      · simp [hval] at h

theorem strptime_true_of_false (s : String) (t : PyDateTime)
    (h : strptimeIso false s = some t) : strptimeIso true s = none := by
  obtain ⟨hp, _⟩ := strptime_false_parts s t h
  simp [strptimeIso, hp, parseLit]

theorem lcChar_digit (c : Char) (h : isDigitChar c = true) : lcChar c = c := by
  simp only [isDigitChar, Bool.and_eq_true, decide_eq_true_eq] at h
  rw [lcChar, if_neg]
  omega

theorem head_digit_not_specials (s : String) (c : Char) (rest : List Char)
    (hd : s.data = c :: rest) (hdig : isDigitChar c = true) :
    s ≠ "" ∧ lowerAscii s ≠ "none" ∧ lowerAscii s ≠ "null" := by
  refine ⟨?_, ?_, ?_⟩
  · intro he
    rw [he] at hd
    cases hd
  · intro he
    have : (lowerAscii s).data = "none".data := by rw [he]
    rw [lowerAscii] at this
    simp only [hd, List.map_cons] at this
    have hc : lcChar c = 'n' := by
      have := congrArg (fun l => l.headI) this
      simpa using this
    rw [lcChar_digit c hdig] at hc
    subst hc
    simp [isDigitChar] at hdig
  · intro he
    have : (lowerAscii s).data = "null".data := by rw [he]
    rw [lowerAscii] at this
    simp only [hd, List.map_cons] at this
    have hc : lcChar c = 'n' := by
      have := congrArg (fun l => l.headI) this
      simpa using this
    rw [lcChar_digit c hdig] at hc
    subst hc
    simp [isDigitChar] at hdig

theorem fix_gate_false (s : String) (c : Char) (rest : List Char)
    (hd : s.data = c :: rest) (hdig : isDigitChar c = true) :
    (s = "" || lowerAscii s == "none" || lowerAscii s == "null") = false := by
  obtain ⟨h1, h2, h3⟩ := head_digit_not_specials s c rest hd hdig
  simp [h1, h2, h3]

/-- C8 counterexample: the claim says the Mapper parses ISO-8601 values
*without* fractional seconds for `recordedDate` and re-emits them as
`...Z`; on the code, `fix_fhir_datetime` fails on such a value and the
key is pruned from the resource. -/
theorem mapper_datetime_counterexample :
    mapAndCleanResource (fun _ => []) [("recordedDate", .str "\x7b\x7bd\x7d\x7d")]
      [] [("d", .str "2025-03-04T05:06:07")] = some (.obj []) ∧
    fixFhirDatetime "2025-03-04T05:06:07" = none ∧
    fixFhirDatetime "2025-03-04T05:06:07" ≠ some "2025-03-04T05:06:07Z" := by
  refine ⟨by decide, by decide, by decide⟩

/-- C8 amended: the standard mapper's `fix_fhir_datetime` re-emits only
values WITH fractional seconds and yields null for fraction-less and
unparseable values; the Consent variant parses both forms; and the
standard date-fix loop does not touch the `dateTime` key. -/
theorem mapper_datetime_normalisation (s : String) (t : PyDateTime) :
    (strptimeIso true s = some t →
        fixFhirDatetime s = some (strftimeZ t) ∧
        fixFhirDatetimeConsent s = some (strftimeZ t)) ∧
    (strptimeIso false s = some t →
        fixFhirDatetime s = none ∧
        fixFhirDatetimeConsent s = some (strftimeZ t)) ∧
    (strptimeIso true s = none → strptimeIso false s = none →
        fixFhirDatetime s = none ∧ fixFhirDatetimeConsent s = none) ∧
    (∀ d, applyDateFixes mapperDateFields [("dateTime", .str d)] =
        some [("dateTime", .str d)]) := by
  refine ⟨?_, ?_, ?_, ?_⟩
  · intro h
    obtain ⟨c, rest, hd, hdig⟩ := strptime_head_digit true s t h
    have hg := fix_gate_false s c rest hd hdig
    constructor
    · rw [fixFhirDatetime, if_neg (by simp [hg]), h]
    · rw [fixFhirDatetimeConsent, if_neg (by simp [hg]), h]
  · intro h
    obtain ⟨c, rest, hd, hdig⟩ := strptime_head_digit false s t h
    have hg := fix_gate_false s c rest hd hdig
    have htrue := strptime_true_of_false s t h
    constructor
    · rw [fixFhirDatetime, if_neg (by simp [hg]), htrue]
    · rw [fixFhirDatetimeConsent, if_neg (by simp [hg]), htrue, h]
  · intro h1 h2
    constructor
    · rw [fixFhirDatetime]
      by_cases hc : (s = "" || lowerAscii s == "none" || lowerAscii s == "null") = true
      · rw [if_pos (by simpa using hc)]
      · rw [if_neg (by simpa using hc), h1]
    · rw [fixFhirDatetimeConsent]
      by_cases hc : (s = "" || lowerAscii s == "none" || lowerAscii s == "null") = true
      · rw [if_pos (by simpa using hc)]
      · rw [if_neg (by simpa using hc), h1, h2]
  · intro d
    rfl

/-- Witness for C8 at a concrete timestamp: the fractional form is
normalised by both mappers, the fraction-less form only by Consent. -/
theorem mapper_datetime_normalisation_wit :
    fixFhirDatetime "2025-03-04T05:06:07.1" = some "2025-03-04T05:06:07Z" ∧
    fixFhirDatetimeConsent "2025-03-04T05:06:07" = some "2025-03-04T05:06:07Z" :=
  ⟨((mapper_datetime_normalisation "2025-03-04T05:06:07.1"
      ⟨2025, 3, 4, 5, 6, 7⟩).1 (by decide)).1,
   (((mapper_datetime_normalisation "2025-03-04T05:06:07"
      ⟨2025, 3, 4, 5, 6, 7⟩).2).1 (by decide)).2⟩

/-! ### Durable queue and staging state (utils/db.py, utils/resource.py) -/

/-- One `fhir_queue` row. -/
structure QueueRow where
  id : Nat
  resourceType : String
  identifier : String
  resourceData : JValue
  processed : Bool
deriving DecidableEq, Repr

/-- One staging-table row: its table (the lowercased resource name), its
primary key, and the value of the `group_by` column (only meaningful for
Consent rows). -/
structure StagingRow where
  table : String
  id : Nat
  group : String
  processed : Bool
deriving DecidableEq, Repr

/-- The database state the publisher touches. -/
structure Db where
  queue : List QueueRow
  staging : List StagingRow
deriving DecidableEq, Repr

/-- `mark_as_processed_and_delete` (src/application/utils/resource.py lines
78-106): set `processed`, delete the queue row, delete the staging row of
table `resource_type.lower()` with the same id. -/
def markAsProcessedAndDelete (rowId : Nat) (resourceType : String) (db : Db) : Db :=
  let q1 := db.queue.map
    (fun r => if r.id = rowId then { r with processed := true } else r)
  let q2 := q1.filter (fun r => r.id ≠ rowId)
  let table := lowerAscii resourceType
  let st := db.staging.filter (fun sr => ¬(sr.table = table ∧ sr.id = rowId))
  ⟨q2, st⟩

/-- One round of HTTP responses from the FHIR server: status of the
identifier search (`none` = network exception), the search body's
`total` and first entry id, and the statuses of a PUT and a POST if one
is issued. -/
structure FhirHttp where
  searchStatus : Option Nat
  searchTotal : Nat
  searchFirstId : String
  putStatus : Option Nat
  postStatus : Option Nat
deriving DecidableEq, Repr

/-- Observable effects of one `send_fhir_resource` call: its result and
the requests it issued. -/
structure SendOutcome where
  ok : Bool
  getCount : Nat
  putCount : Nat
  postCount : Nat
  sentPayload : Option JValue
deriving DecidableEq, Repr

/-- `resource_data["id"] = existing_id` before a PUT. -/
def jSetId (v : JValue) (newId : String) : JValue :=
  match v with
  | .obj kv => .obj (recSet kv "id" (.str newId))
  | w => w

/-- `resource_data.pop("id", None)` before a POST. -/
def jRemoveId (v : JValue) : JValue :=
  match v with
  | .obj kv => .obj (kv.filter (fun p => p.fst ≠ "id"))
  | w => w

/-- `send_fhir_resource` (src/application/utils/resource.py lines 28-76):
search by identifier; on `total > 0` PUT to the existing id, else POST
with the id removed; 200/201 is success, anything else (4xx, 5xx,
network exception) returns `False`.  There is no retry of any kind. -/
def sendFhirResource (http : FhirHttp) (resourceData : JValue) : SendOutcome :=
  match http.searchStatus with
  | none => ⟨false, 1, 0, 0, none⟩
  | some st =>
    if st = 200 then
      if 0 < http.searchTotal then
        let payload := jSetId resourceData http.searchFirstId
        match http.putStatus with
        | none => ⟨false, 1, 1, 0, some payload⟩
        | some ps => ⟨ps = 200 || ps = 201, 1, 1, 0, some payload⟩
      else
        let payload := jRemoveId resourceData
        match http.postStatus with
        | none => ⟨false, 1, 0, 1, some payload⟩
        | some ps => ⟨ps = 200 || ps = 201, 1, 0, 1, some payload⟩
    else ⟨false, 1, 0, 0, none⟩

/-- `process_fhir_row` (src/application/utils/resource.py lines 108-124):
Consent rows are skipped; for every other row the resource is sent once
and the row is marked-and-deleted on success AND on failure (the
else-branch logs "Marking invalid ... to avoid retry loop" and deletes
too). -/
def processFhirRow (http : FhirHttp) (db : Db) (row : QueueRow) :
    Db × SendOutcome :=
  if lowerAscii row.resourceType = "consent" then (db, ⟨false, 0, 0, 0, none⟩)
  else
    let outcome := sendFhirResource http row.resourceData
    (markAsProcessedAndDelete row.id row.resourceType db, outcome)

/-- The batch read of `poll_and_process_fhir`: unprocessed queue rows,
LIMIT `batchSize`. -/
def fetchBatch (batchSize : Nat) (db : Db) : List QueueRow :=
  (db.queue.filter (fun r => r.processed = false)).take batchSize

/-- One iteration of the drain loop of `poll_and_process_fhir`
(src/application/utils/resource.py lines 126-158): read a batch; if it
is empty the loop breaks (the state is returned unchanged), otherwise
every row of the batch is processed. -/
def drainStep (http : FhirHttp) (batchSize : Nat) (db : Db) : Db :=
  let rows := fetchBatch batchSize db
  if rows.isEmpty then db
  else rows.foldl (fun acc r => (processFhirRow http acc r).fst) db

/-- `n` iterations of the drain loop. -/
def drainIter (http : FhirHttp) (batchSize : Nat) : Nat → Db → Db
  | 0, db => db
  | n + 1, db => drainIter http batchSize n (drainStep http batchSize db)

/-- The drain loop terminates: some iteration reads an empty batch. -/
def drainTerminates (http : FhirHttp) (batchSize : Nat) (db : Db) : Prop :=
  ∃ n, fetchBatch batchSize (drainIter http batchSize n db) = []

/-! ### Queue inserts (central_processor.py, central_processor_consent.py) -/

/-- The two supported database engines. -/
inductive DbKind where
  | postgres : DbKind
  | sqlite : DbKind
deriving DecidableEq, Repr

/-- `insert_into_fhir_queue` (src/application/utils/central_processor.py
lines 50-69).  Postgres: `ON CONFLICT (id) DO NOTHING` swallows an id
clash; a UNIQUE violation on `identifier` raises and is caught by the
function's `except`, leaving the transaction uncommitted.  SQLite:
`INSERT OR IGNORE` skips the row on any constraint violation.  In every
conflict case the state is unchanged and no error escapes. -/
def insertIntoFhirQueue (kind : DbKind) (db : Db) (resourceType identifier : String)
    (resourceData : JValue) (rowId : Nat) : Db :=
  match kind with
  | .postgres =>
      if db.queue.any (fun r => r.id = rowId) then db
      else if db.queue.any (fun r => r.identifier = identifier) then db
      else { db with queue :=
        db.queue ++ [⟨rowId, resourceType, identifier, resourceData, false⟩] }
  | .sqlite =>
      if db.queue.any (fun r => r.id = rowId || r.identifier = identifier) then db
      else { db with queue :=
        db.queue ++ [⟨rowId, resourceType, identifier, resourceData, false⟩] }

/-- `insert_into_fhir_queue`
(src/application/utils/central_processor_consent.py lines 56-81): the id
is auto-incremented (`freshId`), the conflict target is `identifier`
(`ON CONFLICT (identifier) DO NOTHING` / `INSERT OR IGNORE`), and the
resource is cleaned once more before storage. -/
def insertIntoFhirQueueConsent (kind : DbKind) (freshId : Nat) (db : Db)
    (resourceType compositionId : String) (resourceData : JValue) : Db :=
  let cleaned := cleanSection resourceData
  match kind with
  | .postgres =>
      if db.queue.any (fun r => r.identifier = compositionId) then db
      else { db with queue :=
        db.queue ++ [⟨freshId, resourceType, compositionId, cleaned, false⟩] }
  | .sqlite =>
      if db.queue.any (fun r => r.identifier = compositionId) then db
      else { db with queue :=
        db.queue ++ [⟨freshId, resourceType, compositionId, cleaned, false⟩] }

/-! ### Consent publisher (utils/resource_consent.py) -/

/-- Result of `send_fhir_consent`: `True`, `"invalid"` (4xx) or `False`. -/
inductive ConsentSendResult where
  | ok : ConsentSendResult
  | invalid : ConsentSendResult
  | failed : ConsentSendResult
deriving DecidableEq, Repr

/-- The `query_retries` configuration (conf/config.py lines 183-185). -/
structure RetryCfg where
  enabled : Bool
  count : Nat
deriving DecidableEq, Repr

/-- One pass of the body of `send_fhir_consent`
(src/application/utils/resource_consent.py lines 36-79): `Except.error`
is a network exception (the only case that reaches the retry footer);
every HTTP status is classified and returned immediately. -/
def consentAttempt (h : FhirHttp) : Except Unit ConsentSendResult :=
  match h.searchStatus with
  | none => .error ()
  | some st =>
    if st = 200 then
      if 0 < h.searchTotal then
        match h.putStatus with
        | none => .error ()
        | some ps =>
            .ok (if ps = 200 || ps = 201 then .ok
                 else if 400 ≤ ps ∧ ps < 500 then .invalid
                 else .failed)
      else
        match h.postStatus with
        | none => .error ()
        | some ps =>
            .ok (if ps = 200 || ps = 201 then .ok
                 else if 400 ≤ ps ∧ ps < 500 then .invalid
                 else .failed)
    else .ok .failed

/-- The retry loop of `send_fhir_consent` (lines 81-87): after a network
exception, `attempt += 1`; give up when retries are disabled or
`attempt >= QUERY_RETRY_COUNT`.  `fuel` bounds the recursion; it starts
at `cfg.count` and a retry only happens while `attempt + 1 < cfg.count`,
so it never runs out on a reachable path. -/
def sendFhirConsentGo (cfg : RetryCfg) (http : Nat → FhirHttp)
    (attempt fuel : Nat) : ConsentSendResult :=
  match consentAttempt (http attempt) with
  | .ok r => r
  | .error () =>
      if !cfg.enabled || cfg.count ≤ attempt + 1 then .failed
      else match fuel with
        | 0 => .failed
        | f + 1 => sendFhirConsentGo cfg http (attempt + 1) f
termination_by structural fuel

/-- `send_fhir_consent` (src/application/utils/resource_consent.py lines
32-87). -/
def sendFhirConsent (cfg : RetryCfg) (http : Nat → FhirHttp) : ConsentSendResult :=
  sendFhirConsentGo cfg http 0 cfg.count

/-- `mark_consent_as_processed_and_delete` (lines 89-117): mark and delete
the queue row by id, then delete the Consent staging rows sharing the
group value. -/
def markConsentProcessedAndDelete (queueId : Nat) (groupId : String) (db : Db) : Db :=
  let q1 := db.queue.map
    (fun r => if r.id = queueId then { r with processed := true } else r)
  let q2 := q1.filter (fun r => r.id ≠ queueId)
  let st := db.staging.filter
    (fun sr => ¬(sr.table = "consent" ∧ sr.group = groupId))
  ⟨q2, st⟩

/-- The per-row branch of `poll_and_process_fhir_consent` (lines 149-164):
success marks and deletes; `"invalid"` (4xx) and transient failure leave
the row untouched. -/
def processConsentRow (cfg : RetryCfg) (http : Nat → FhirHttp) (db : Db)
    (row : QueueRow) : Db :=
  match sendFhirConsent cfg http with
  | .ok => markConsentProcessedAndDelete row.id row.identifier db
  | .invalid => db
  | .failed => db

/-! ### Claims C5, C6, C2, C7: queue insert and publisher behaviour -/

theorem mark_delete_queue_gone (rowId : Nat) (rt : String) (db : Db) :
    ∀ r ∈ (markAsProcessedAndDelete rowId rt db).queue, r.id ≠ rowId := by
  intro r hr
  have := List.of_mem_filter hr
  simpa using this

theorem mark_delete_staging_gone (rowId : Nat) (rt : String) (db : Db) :
    ∀ sr ∈ (markAsProcessedAndDelete rowId rt db).staging,
      ¬(sr.table = lowerAscii rt ∧ sr.id = rowId) := by
  intro sr hsr hab
  have h := List.of_mem_filter hsr
  simp [hab.1, hab.2] at h

/-- C5: re-inserting an already-queued `(resource_type, identifier)` is a
no-op for both insert paths and both database engines; the state is
unchanged and no error escapes (the embedded functions return normally). -/
theorem queue_insert_conflict_noop (kind : DbKind) (db : Db)
    (rtype ident : String) (rdata : JValue) (rowId freshId : Nat)
    (h : ∃ r ∈ db.queue, r.resourceType = rtype ∧ r.identifier = ident) :
    insertIntoFhirQueue kind db rtype ident rdata rowId = db ∧
    insertIntoFhirQueueConsent kind freshId db rtype ident rdata = db := by
  obtain ⟨r, hr, _, hid⟩ := h
  have hany : db.queue.any (fun x => x.identifier = ident) = true :=
    List.any_eq_true.mpr ⟨r, hr, by simp [hid]⟩
  constructor
  · cases kind with
    | postgres =>
      rw [insertIntoFhirQueue]
      by_cases hid2 : db.queue.any (fun x => x.id = rowId) = true
      · rw [if_pos hid2]
      · rw [if_neg hid2, if_pos hany]
    | sqlite =>
      rw [insertIntoFhirQueue, if_pos
        (List.any_eq_true.mpr ⟨r, hr, by simp [hid]⟩)]
  · cases kind with
    | postgres => rw [insertIntoFhirQueueConsent]; rw [if_pos hany]
    | sqlite => rw [insertIntoFhirQueueConsent]; rw [if_pos hany]

/-- Witness for C5 on a one-row queue. -/
theorem queue_insert_conflict_noop_wit :
    insertIntoFhirQueue .postgres
      ⟨[⟨1, "Patient", "P1", .obj [], false⟩], []⟩ "Patient" "P1" (.obj []) 2 =
      ⟨[⟨1, "Patient", "P1", .obj [], false⟩], []⟩ ∧
    insertIntoFhirQueueConsent .postgres 2
      ⟨[⟨1, "Patient", "P1", .obj [], false⟩], []⟩ "Patient" "P1" (.obj []) =
      ⟨[⟨1, "Patient", "P1", .obj [], false⟩], []⟩ :=
  queue_insert_conflict_noop .postgres
    ⟨[⟨1, "Patient", "P1", .obj [], false⟩], []⟩ "Patient" "P1" (.obj []) 2 2
    (by decide)

/-- C6: the publisher searches first; `total > 0` leads to exactly one PUT
with the payload's id set to the first entry's id, `total = 0` to exactly
one POST with the id removed; and in the concrete `total = 0`, POST-201
case the result is success, no PUT is issued, and both the queue row and
its staging row are deleted. -/
theorem publisher_search_then_upsert (http : FhirHttp) (db : Db) (row : QueueRow)
    (hcons : ¬ lowerAscii row.resourceType = "consent")
    (hs : http.searchStatus = some 200) :
    (0 < http.searchTotal →
        (processFhirRow http db row).snd.putCount = 1 ∧
        (processFhirRow http db row).snd.postCount = 0 ∧
        (processFhirRow http db row).snd.sentPayload =
          some (jSetId row.resourceData http.searchFirstId)) ∧
    (http.searchTotal = 0 →
        (processFhirRow http db row).snd.putCount = 0 ∧
        (processFhirRow http db row).snd.postCount = 1 ∧
        (processFhirRow http db row).snd.sentPayload =
          some (jRemoveId row.resourceData)) ∧
    (http.searchTotal = 0 → http.postStatus = some 201 →
        (processFhirRow http db row).snd.ok = true ∧
        (∀ r ∈ (processFhirRow http db row).fst.queue, r.id ≠ row.id) ∧
        (∀ sr ∈ (processFhirRow http db row).fst.staging,
          ¬(sr.table = lowerAscii row.resourceType ∧ sr.id = row.id))) := by
  have hrow : processFhirRow http db row =
      (markAsProcessedAndDelete row.id row.resourceType db,
       sendFhirResource http row.resourceData) := by
    rw [processFhirRow, if_neg hcons]
  refine ⟨?_, ?_, ?_⟩
  · intro ht
    rw [hrow]
    simp only [sendFhirResource, hs, if_true]
    rw [if_pos ht]
    cases http.putStatus <;> simp
  · intro ht
    rw [hrow]
    simp only [sendFhirResource, hs, if_true]
    rw [if_neg (by omega)]
    cases http.postStatus <;> simp
  · intro ht hp
    refine ⟨?_, ?_, ?_⟩
    · rw [hrow]
      simp only [sendFhirResource, hs, hp, if_true]
      rw [if_neg (by omega)]
      simp
    · rw [hrow]
      exact mark_delete_queue_gone row.id row.resourceType db
    · rw [hrow]
      exact mark_delete_staging_gone row.id row.resourceType db

/-- Witness for C6: `total = 0`, POST returns 201. -/
theorem publisher_search_then_upsert_wit :
    (processFhirRow ⟨some 200, 0, "", none, some 201⟩
        ⟨[⟨7, "Patient", "P9", .obj [("a", .str "b")], false⟩], [⟨"patient", 7, "", false⟩]⟩
        ⟨7, "Patient", "P9", .obj [("a", .str "b")], false⟩).snd.ok = true ∧
    (∀ r ∈ (processFhirRow ⟨some 200, 0, "", none, some 201⟩
        ⟨[⟨7, "Patient", "P9", .obj [("a", .str "b")], false⟩], [⟨"patient", 7, "", false⟩]⟩
        ⟨7, "Patient", "P9", .obj [("a", .str "b")], false⟩).fst.queue, r.id ≠ 7) ∧
    (∀ sr ∈ (processFhirRow ⟨some 200, 0, "", none, some 201⟩
        ⟨[⟨7, "Patient", "P9", .obj [("a", .str "b")], false⟩], [⟨"patient", 7, "", false⟩]⟩
        ⟨7, "Patient", "P9", .obj [("a", .str "b")], false⟩).fst.staging,
      ¬(sr.table = lowerAscii "Patient" ∧ sr.id = 7)) :=
  (publisher_search_then_upsert ⟨some 200, 0, "", none, some 201⟩
    ⟨[⟨7, "Patient", "P9", .obj [("a", .str "b")], false⟩], [⟨"patient", 7, "", false⟩]⟩
    ⟨7, "Patient", "P9", .obj [("a", .str "b")], false⟩
    (by decide) rfl).2.2 rfl rfl

/-- C2 counterexample: GET finds `total = 1, id = X` and every PUT returns
500.  The claim predicts 3 PUT attempts (retry_count = 2) and a surviving
queue row; the code issues exactly one PUT and deletes the queue row. -/
theorem publisher_retry_counterexample :
    (processFhirRow ⟨some 200, 1, "X", some 500, none⟩
        ⟨[⟨7, "Patient", "P9", .obj [], false⟩], [⟨"patient", 7, "", false⟩]⟩
        ⟨7, "Patient", "P9", .obj [], false⟩).snd.putCount = 1 ∧
    ¬ (processFhirRow ⟨some 200, 1, "X", some 500, none⟩
        ⟨[⟨7, "Patient", "P9", .obj [], false⟩], [⟨"patient", 7, "", false⟩]⟩
        ⟨7, "Patient", "P9", .obj [], false⟩).snd.putCount = 3 ∧
    (processFhirRow ⟨some 200, 1, "X", some 500, none⟩
        ⟨[⟨7, "Patient", "P9", .obj [], false⟩], [⟨"patient", 7, "", false⟩]⟩
        ⟨7, "Patient", "P9", .obj [], false⟩).fst.queue = [] := by
  refine ⟨by decide, by decide, by decide⟩

/-- C2 amended: the non-Consent publisher performs a single attempt — at
most one GET, one PUT and one POST per queue row, whatever the responses
(5xx, network error included) — and the queue row is deleted on every
outcome rather than left for a next cycle. -/
theorem publisher_single_attempt_dequeue (http : FhirHttp) (db : Db)
    (row : QueueRow) (hcons : ¬ lowerAscii row.resourceType = "consent") :
    (processFhirRow http db row).snd.getCount ≤ 1 ∧
    (processFhirRow http db row).snd.putCount ≤ 1 ∧
    (processFhirRow http db row).snd.postCount ≤ 1 ∧
    (∀ r ∈ (processFhirRow http db row).fst.queue, r.id ≠ row.id) := by
  have hrow : processFhirRow http db row =
      (markAsProcessedAndDelete row.id row.resourceType db,
       sendFhirResource http row.resourceData) := by
    rw [processFhirRow, if_neg hcons]
  have hsend : (sendFhirResource http row.resourceData).getCount ≤ 1 ∧
      (sendFhirResource http row.resourceData).putCount ≤ 1 ∧
      (sendFhirResource http row.resourceData).postCount ≤ 1 := by
    rw [sendFhirResource]
    split
    · simp
    · split_ifs
      · split <;> simp
      · split <;> simp
      · simp
  rw [hrow]
  exact ⟨hsend.1, hsend.2.1, hsend.2.2,
    mark_delete_queue_gone row.id row.resourceType db⟩

/-- Witness for C2's amended claim (PUT keeps failing with 500). -/
theorem publisher_single_attempt_dequeue_wit :
    (processFhirRow ⟨some 200, 1, "X", some 500, none⟩
        ⟨[⟨7, "Patient", "P9", .obj [], false⟩], []⟩
        ⟨7, "Patient", "P9", .obj [], false⟩).snd.getCount ≤ 1 ∧
    (processFhirRow ⟨some 200, 1, "X", some 500, none⟩
        ⟨[⟨7, "Patient", "P9", .obj [], false⟩], []⟩
        ⟨7, "Patient", "P9", .obj [], false⟩).snd.putCount ≤ 1 ∧
    (processFhirRow ⟨some 200, 1, "X", some 500, none⟩
        ⟨[⟨7, "Patient", "P9", .obj [], false⟩], []⟩
        ⟨7, "Patient", "P9", .obj [], false⟩).snd.postCount ≤ 1 ∧
    (∀ r ∈ (processFhirRow ⟨some 200, 1, "X", some 500, none⟩
        ⟨[⟨7, "Patient", "P9", .obj [], false⟩], []⟩
        ⟨7, "Patient", "P9", .obj [], false⟩).fst.queue, r.id ≠ 7) :=
  publisher_single_attempt_dequeue ⟨some 200, 1, "X", some 500, none⟩
    ⟨[⟨7, "Patient", "P9", .obj [], false⟩], []⟩
    ⟨7, "Patient", "P9", .obj [], false⟩ (by decide)

/-- A 4xx on the request that `send_fhir_resource` actually issues —
the PUT when the search found the resource (`total > 0`), the POST when
it did not — makes the call return `False`. -/
theorem sendFhirResource_4xx_fails (http : FhirHttp) (payload : JValue)
    (s : Nat) (hs : http.searchStatus = some 200) (h4 : 400 ≤ s) (h5 : s < 500)
    (harm : (0 < http.searchTotal ∧ http.putStatus = some s) ∨
            (http.searchTotal = 0 ∧ http.postStatus = some s)) :
    (sendFhirResource http payload).ok = false := by
  have hor : (decide (s = 200) || decide (s = 201)) = false := by
    simp only [Bool.or_eq_false_iff, decide_eq_false_iff_not]
    omega
  rcases harm with ⟨htot, hput⟩ | ⟨htot, hpost⟩
  · simp only [sendFhirResource, hs, hput, if_true]
    rw [if_pos htot]
    simp [hor]
  · simp only [sendFhirResource, hs, hpost, if_true]
    rw [if_neg (by omega)]
    simp [hor]

/-- A 4xx on the PUT arm (`total > 0`) or the POST arm (`total = 0`) makes
one pass of `send_fhir_consent` classify the row as `"invalid"`. -/
theorem consentAttempt_4xx_invalid (h2 : FhirHttp) (s : Nat)
    (hs : h2.searchStatus = some 200) (h4 : 400 ≤ s) (h5 : s < 500)
    (harm : (0 < h2.searchTotal ∧ h2.putStatus = some s) ∨
            (h2.searchTotal = 0 ∧ h2.postStatus = some s)) :
    consentAttempt h2 = .ok .invalid := by
  have h200 : (decide (s = 200) || decide (s = 201)) = false := by
    simp only [Bool.or_eq_false_iff, decide_eq_false_iff_not]
    omega
  rcases harm with ⟨htot, hput⟩ | ⟨htot, hpost⟩
  · simp only [consentAttempt, hs, hput, if_true]
    rw [if_pos htot]
    rw [if_neg (by simp [h200]), if_pos (by omega)]
  · simp only [consentAttempt, hs, hpost, if_true]
    rw [if_neg (by omega)]
    rw [if_neg (by simp [h200]), if_pos (by omega)]

/-- A first attempt that returns immediately (no network exception)
determines `send_fhir_consent`, whatever the retry configuration. -/
theorem sendFhirConsent_of_first_attempt (cfg : RetryCfg)
    (chttp : Nat → FhirHttp) (r : ConsentSendResult)
    (hatt : consentAttempt (chttp 0) = .ok r) :
    sendFhirConsent cfg chttp = r := by
  rw [sendFhirConsent]
  cases hc : cfg.count with
  | zero => rw [sendFhirConsentGo, hatt]
  | succ n => rw [sendFhirConsentGo, hatt]

/-- C7: a 4xx response — whether on the PUT of an existing resource
(search `total > 0`) or on the POST of a new one (`total = 0`) —
dequeues a non-Consent row (the anti-poison-pill policy) but leaves a
Consent queue row untouched, neither marked nor deleted. -/
theorem four_xx_dequeue_policy (http : FhirHttp) (cfg : RetryCfg)
    (chttp : Nat → FhirHttp) (db db2 : Db) (row row2 : QueueRow)
    (s : Nat) (hcons : ¬ lowerAscii row.resourceType = "consent")
    (hs : http.searchStatus = some 200) (h4 : 400 ≤ s) (h5 : s < 500)
    (harm : (0 < http.searchTotal ∧ http.putStatus = some s) ∨
            (http.searchTotal = 0 ∧ http.postStatus = some s)) :
    ((processFhirRow http db row).snd.ok = false ∧
     ∀ r ∈ (processFhirRow http db row).fst.queue, r.id ≠ row.id) ∧
    (∀ s2, 400 ≤ s2 → s2 < 500 → (chttp 0).searchStatus = some 200 →
     ((0 < (chttp 0).searchTotal ∧ (chttp 0).putStatus = some s2) ∨
      ((chttp 0).searchTotal = 0 ∧ (chttp 0).postStatus = some s2)) →
     sendFhirConsent cfg chttp = .invalid ∧
     processConsentRow cfg chttp db2 row2 = db2) := by
  constructor
  · constructor
    · rw [processFhirRow, if_neg hcons]
      exact sendFhirResource_4xx_fails http row.resourceData s hs h4 h5 harm
    · rw [processFhirRow, if_neg hcons]
      exact mark_delete_queue_gone row.id row.resourceType db
  · intro s2 hc4 hc5 hcs harm2
    have hatt := consentAttempt_4xx_invalid (chttp 0) s2 hcs hc4 hc5 harm2
    have hsend := sendFhirConsent_of_first_attempt cfg chttp .invalid hatt
    exact ⟨hsend, by rw [processConsentRow, hsend]⟩

/-- Witness for C7 on both arms: a PUT that returns 404 (search found the
resource) and a POST that returns 422 (search found nothing), for a
Patient row and a Consent row each. -/
theorem four_xx_dequeue_policy_wit :
    (processFhirRow ⟨some 200, 1, "X", some 404, none⟩
        ⟨[⟨7, "Patient", "P9", .obj [], false⟩], []⟩
        ⟨7, "Patient", "P9", .obj [], false⟩).snd.ok = false ∧
    (processFhirRow ⟨some 200, 0, "", none, some 422⟩
        ⟨[⟨7, "Patient", "P9", .obj [], false⟩], []⟩
        ⟨7, "Patient", "P9", .obj [], false⟩).snd.ok = false ∧
    sendFhirConsent ⟨true, 3⟩ (fun _ => ⟨some 200, 1, "X", some 404, none⟩) =
      .invalid ∧
    processConsentRow ⟨true, 3⟩ (fun _ => ⟨some 200, 1, "X", some 404, none⟩)
      ⟨[⟨9, "Consent", "A", .obj [], false⟩], []⟩
      ⟨9, "Consent", "A", .obj [], false⟩ =
      ⟨[⟨9, "Consent", "A", .obj [], false⟩], []⟩ ∧
    sendFhirConsent ⟨true, 3⟩ (fun _ => ⟨some 200, 0, "", none, some 422⟩) =
      .invalid ∧
    processConsentRow ⟨true, 3⟩ (fun _ => ⟨some 200, 0, "", none, some 422⟩)
      ⟨[⟨9, "Consent", "A", .obj [], false⟩], []⟩
      ⟨9, "Consent", "A", .obj [], false⟩ =
      ⟨[⟨9, "Consent", "A", .obj [], false⟩], []⟩ := by
  have hput := four_xx_dequeue_policy ⟨some 200, 1, "X", some 404, none⟩ ⟨true, 3⟩
    (fun _ => ⟨some 200, 1, "X", some 404, none⟩)
    ⟨[⟨7, "Patient", "P9", .obj [], false⟩], []⟩
    ⟨[⟨9, "Consent", "A", .obj [], false⟩], []⟩
    ⟨7, "Patient", "P9", .obj [], false⟩
    ⟨9, "Consent", "A", .obj [], false⟩
    404 (by decide) rfl (by decide) (by decide) (Or.inl ⟨by decide, rfl⟩)
  have hpost := four_xx_dequeue_policy ⟨some 200, 0, "", none, some 422⟩ ⟨true, 3⟩
    (fun _ => ⟨some 200, 0, "", none, some 422⟩)
    ⟨[⟨7, "Patient", "P9", .obj [], false⟩], []⟩
    ⟨[⟨9, "Consent", "A", .obj [], false⟩], []⟩
    ⟨7, "Patient", "P9", .obj [], false⟩
    ⟨9, "Consent", "A", .obj [], false⟩
    422 (by decide) rfl (by decide) (by decide) (Or.inr ⟨rfl, rfl⟩)
  have hcput := hput.2 404 (by decide) (by decide) rfl (Or.inl ⟨by decide, rfl⟩)
  have hcpost := hpost.2 422 (by decide) (by decide) rfl (Or.inr ⟨rfl, rfl⟩)
  exact ⟨hput.1.1, hpost.1.1, hcput.1, hcput.2, hcpost.1, hcpost.2⟩

/-! ### Claim C10: termination of the standard drain loop -/

/-- Number of unprocessed queue rows. -/
def unprocCount (db : Db) : Nat :=
  (db.queue.filter (fun r => r.processed = false)).length

/-- No unprocessed Consent rows sit in the queue. -/
def noConsentUnprocessed (db : Db) : Prop :=
  ∀ r ∈ db.queue, lowerAscii r.resourceType = "consent" → r.processed = true

theorem count_after_mark (q : List QueueRow) (rowId : Nat) :
    (((q.map (fun r => if r.id = rowId then { r with processed := true } else r)).filter
        (fun r => r.id ≠ rowId)).filter (fun r => r.processed = false)).length =
    ((q.filter (fun r => r.id ≠ rowId)).filter (fun r => r.processed = false)).length := by
  induction q with
  | nil => rfl
  | cons r rest ih =>
    by_cases h1 : r.id = rowId
    · simp [h1] at ih ⊢
      omega
    · by_cases h2 : r.processed = false <;>
        · simp [h1, h2] at ih ⊢
          omega

theorem count_mark_le (q : List QueueRow) (rowId : Nat) :
    ((q.filter (fun r => r.id ≠ rowId)).filter (fun r => r.processed = false)).length ≤
    (q.filter (fun r => r.processed = false)).length := by
  induction q with
  | nil => exact Nat.le_refl 0
  | cons r rest ih =>
    by_cases h1 : r.id = rowId <;> by_cases h2 : r.processed = false <;>
      · simp [h1, h2] at ih ⊢
        omega

theorem count_mark_lt (q : List QueueRow) (rowId : Nat)
    (hex : ∃ r ∈ q, r.processed = false ∧ r.id = rowId) :
    ((q.filter (fun r => r.id ≠ rowId)).filter (fun r => r.processed = false)).length <
    (q.filter (fun r => r.processed = false)).length := by
  induction q with
  | nil => obtain ⟨r, hr, _⟩ := hex; cases hr
  | cons r rest ih =>
    obtain ⟨w, hw, hwp, hwid⟩ := hex
    rcases List.mem_cons.mp hw with hwr | hwrest
    · subst hwr
      have hle := count_mark_le rest rowId
      simp [hwid, hwp] at hle ⊢
      omega
    · by_cases h1 : r.id = rowId
      · by_cases h2 : r.processed = false
        · have hle := count_mark_le rest rowId
          simp [h1, h2] at hle ⊢
          omega
        · have hlt := ih ⟨w, hwrest, hwp, hwid⟩
          simp [h1, h2] at hlt ⊢
          omega
      · by_cases h2 : r.processed = false <;>
          · have hlt := ih ⟨w, hwrest, hwp, hwid⟩
            simp [h1, h2] at hlt ⊢
            omega

theorem mark_count_eq (rowId : Nat) (rt : String) (db : Db) :
    unprocCount (markAsProcessedAndDelete rowId rt db) =
    ((db.queue.filter (fun r => r.id ≠ rowId)).filter
      (fun r => r.processed = false)).length := by
  unfold unprocCount markAsProcessedAndDelete
  exact count_after_mark db.queue rowId

theorem processFhirRow_count_le (http : FhirHttp) (db : Db) (row : QueueRow) :
    unprocCount (processFhirRow http db row).fst ≤ unprocCount db := by
  rw [processFhirRow]
  by_cases hc : lowerAscii row.resourceType = "consent"
  · rw [if_pos hc]
  · rw [if_neg hc]
    show unprocCount (markAsProcessedAndDelete row.id row.resourceType db) ≤ _
    rw [mark_count_eq]
    exact count_mark_le db.queue row.id

theorem processFhirRow_count_lt (http : FhirHttp) (db : Db) (row : QueueRow)
    (hc : ¬ lowerAscii row.resourceType = "consent")
    (hmem : row ∈ db.queue) (hup : row.processed = false) :
    unprocCount (processFhirRow http db row).fst < unprocCount db := by
  rw [processFhirRow, if_neg hc]
  show unprocCount (markAsProcessedAndDelete row.id row.resourceType db) < _
  rw [mark_count_eq]
  exact count_mark_lt db.queue row.id ⟨row, hmem, hup, rfl⟩

theorem processFhirRow_preserves_noConsent (http : FhirHttp) (db : Db)
    (row : QueueRow) (h : noConsentUnprocessed db) :
    noConsentUnprocessed (processFhirRow http db row).fst := by
  rw [processFhirRow]
  by_cases hc : lowerAscii row.resourceType = "consent"
  · rw [if_pos hc]; exact h
  · rw [if_neg hc]
    intro r hr hcons
    have hr2 := List.mem_of_mem_filter hr
    obtain ⟨r0, hr0, hEq⟩ := List.mem_map.mp hr2
    by_cases hid : r0.id = row.id
    · rw [← hEq]
      simp [hid]
    · rw [← hEq] at hcons ⊢
      simp only [hid, if_false] at hcons ⊢
      exact h r0 hr0 hcons

theorem fold_count_le (http : FhirHttp) :
    ∀ (rows : List QueueRow) (db : Db),
      unprocCount (rows.foldl (fun acc r => (processFhirRow http acc r).fst) db) ≤
      unprocCount db := by
  intro rows
  induction rows with
  | nil => intro db; exact Nat.le_refl _
  | cons r rest ih =>
    intro db
    rw [List.foldl_cons]
    exact Nat.le_trans (ih _) (processFhirRow_count_le http db r)

theorem fold_preserves_noConsent (http : FhirHttp) :
    ∀ (rows : List QueueRow) (db : Db), noConsentUnprocessed db →
      noConsentUnprocessed
        (rows.foldl (fun acc r => (processFhirRow http acc r).fst) db) := by
  intro rows
  induction rows with
  | nil => intro db h; exact h
  | cons r rest ih =>
    intro db h
    rw [List.foldl_cons]
    exact ih _ (processFhirRow_preserves_noConsent http db r h)

theorem fetchBatch_mem (batchSize : Nat) (db : Db) (r : QueueRow)
    (h : r ∈ fetchBatch batchSize db) :
    r ∈ db.queue ∧ r.processed = false := by
  unfold fetchBatch at h
  have h2 := List.mem_of_mem_take h
  exact ⟨List.mem_of_mem_filter h2, by simpa using List.of_mem_filter h2⟩

theorem drainStep_count_lt (http : FhirHttp) (batchSize : Nat) (db : Db)
    (hinv : noConsentUnprocessed db) (hne : ¬ fetchBatch batchSize db = []) :
    unprocCount (drainStep http batchSize db) < unprocCount db := by
  cases hb : fetchBatch batchSize db with
  | nil => exact absurd hb hne
  | cons r rest =>
    have hrmem := fetchBatch_mem batchSize db r
      (by rw [hb]; exact List.mem_cons_self r rest)
    have hconsr : ¬ lowerAscii r.resourceType = "consent" := by
      intro hc
      have := hinv r hrmem.1 hc
      rw [hrmem.2] at this
      cases this
    rw [drainStep]
    simp only [hb, List.isEmpty_cons, Bool.false_eq_true, if_false,
      List.foldl_cons]
    exact Nat.lt_of_le_of_lt (fold_count_le http rest _)
      (processFhirRow_count_lt http db r hconsr hrmem.1 hrmem.2)

theorem drainStep_preserves_noConsent (http : FhirHttp) (batchSize : Nat)
    (db : Db) (hinv : noConsentUnprocessed db) :
    noConsentUnprocessed (drainStep http batchSize db) := by
  rw [drainStep]
  by_cases he : (fetchBatch batchSize db).isEmpty
  · simp only [he, if_true]
    exact hinv
  · simp only [he, Bool.false_eq_true, if_false]
    exact fold_preserves_noConsent http _ db hinv

/-- C10 counterexample: with a single unprocessed Consent row in the
queue, the standard drain loop never reads an empty batch — each
iteration skips the row without marking or deleting it, so the loop of
`poll_and_process_fhir` runs forever. -/
theorem drain_nontermination_on_consent :
    ¬ drainTerminates ⟨some 200, 0, "", none, some 201⟩ 100
        ⟨[⟨1, "Consent", "A", .obj [], false⟩], []⟩ := by
  rintro ⟨n, hn⟩
  have hfix : ∀ m, drainIter ⟨some 200, 0, "", none, some 201⟩ 100 m
      ⟨[⟨1, "Consent", "A", .obj [], false⟩], []⟩ =
      ⟨[⟨1, "Consent", "A", .obj [], false⟩], []⟩ := by
    intro m
    induction m with
    | zero => rfl
    | succ k ih =>
      have hstep : drainStep ⟨some 200, 0, "", none, some 201⟩ 100
          ⟨[⟨1, "Consent", "A", .obj [], false⟩], []⟩ =
          ⟨[⟨1, "Consent", "A", .obj [], false⟩], []⟩ := by decide
      show drainIter ⟨some 200, 0, "", none, some 201⟩ 100 k
          (drainStep ⟨some 200, 0, "", none, some 201⟩ 100
            ⟨[⟨1, "Consent", "A", .obj [], false⟩], []⟩) = _
      rw [hstep]
      exact ih
  rw [hfix n] at hn
  exact absurd hn (by decide)

/-- C10 amended: the drain loop terminates for every finite initial queue
that contains no unprocessed Consent row: each non-empty batch row is
non-Consent, gets removed whatever the HTTP outcome, and the number of
unprocessed rows strictly shrinks until the batch read returns empty. -/
theorem drain_terminates_without_consent (http : FhirHttp) (batchSize : Nat)
    (db : Db) (h : noConsentUnprocessed db) :
    drainTerminates http batchSize db := by
  suffices H : ∀ N (db2 : Db), unprocCount db2 ≤ N → noConsentUnprocessed db2 →
      drainTerminates http batchSize db2 from H (unprocCount db) db (Nat.le_refl _) h
  intro N
  induction N with
  | zero =>
    intro db2 hle hinv
    refine ⟨0, ?_⟩
    have h0 : db2.queue.filter (fun r => r.processed = false) = [] :=
      List.length_eq_zero.mp (Nat.le_zero.mp hle)
    show fetchBatch batchSize db2 = []
    rw [fetchBatch, h0]
    exact List.take_nil
  | succ N ih =>
    intro db2 hle hinv
    by_cases hb : fetchBatch batchSize db2 = []
    · exact ⟨0, hb⟩
    · have hlt := drainStep_count_lt http batchSize db2 hinv hb
      have hinv2 := drainStep_preserves_noConsent http batchSize db2 hinv
      obtain ⟨n, hn⟩ := ih (drainStep http batchSize db2) (by omega) hinv2
      exact ⟨n + 1, hn⟩

/-- Witness for C10's amended claim: a queue holding one unprocessed
Patient row drains. -/
theorem drain_terminates_without_consent_wit :
    drainTerminates ⟨some 200, 0, "", none, some 201⟩ 100
      ⟨[⟨1, "Patient", "P1", .obj [], false⟩], []⟩ :=
  drain_terminates_without_consent ⟨some 200, 0, "", none, some 201⟩ 100
    ⟨[⟨1, "Patient", "P1", .obj [], false⟩], []⟩
    (by
      intro r hr hc
      simp only [List.mem_singleton] at hr
      subst hr
      exact absurd hc (by decide))

/-! ### Claim C1: fetch windows (utils/openehr_query.py, utils/state.py)

Timestamps are seconds here; the code compares and stores ISO-8601
strings in the format `%Y-%m-%dT%H:%M:%S`, whose lexicographic order and
parse/format round-trip agree with this numeric order. -/

/-- The `fetch_by_date` / polling configuration (conf/config.py lines
164-170). -/
structure FetchCfg where
  startDate : Nat
  endDate : Option Nat
  intervalHours : Nat
  fetchByDate : Bool
  pollIntervalSeconds : Nat
deriving DecidableEq, Repr

/-- `calculate_next_run_time` (src/application/utils/state.py lines
70-82). -/
def calculateNextRunTime (cfg : FetchCfg) (lastRun : Nat) : Nat :=
  if cfg.fetchByDate then lastRun + cfg.intervalHours * 3600
  else lastRun + cfg.pollIntervalSeconds

/-- One successful (HTTP 200) pass of `query_resource` with date-window
fetching enabled (src/application/utils/openehr_query.py lines 86-127):
returns the `(last_run_time, next_run_time)` pair written by
`update_fetch_state` and the `(start, end)` window given to the AQL
query.  The window start is the STORED `last_run_time` (line 87 discards
the stored `next_run_time`: `last_run_time, _ = get_fetch_state(...)`),
and the pair written back stores that same start as `last_run_time`
(line 127: `update_fetch_state(resource_name, last_run_time_str,
next_run_time)`). -/
def queryResourceStep (cfg : FetchCfg) (state : Option (Nat × Nat)) :
    (Nat × Nat) × (Nat × Nat) :=
  let start := match state with
    | some st => st.fst
    | none => cfg.startDate
  let endDt := start + cfg.intervalHours * 3600
  let endTime := match cfg.endDate with
    | some ed => if ed < endDt then ed else endDt
    | none => endDt
  let nextRun := calculateNextRunTime cfg start
  ((start, nextRun), (start, endTime))

/-- The `(last_run_time, next_run_time)` pairs written to `fetch_state` by
`n` successive successful window fetches, starting from `st`. -/
def fetchPairs (cfg : FetchCfg) : Nat → Option (Nat × Nat) → List (Nat × Nat)
  | 0, _ => []
  | n + 1, st =>
      let pair := (queryResourceStep cfg st).fst
      pair :: fetchPairs cfg n (some pair)

/-- The property the claim asserts, written from the spec's words:
successive pairs strictly increase and are contiguous (each window starts
where the previous one ended). -/
def pairsStrictlyAdvancing : List (Nat × Nat) → Bool
  | [] => true
  | [_] => true
  | (a, b) :: (c, d) :: rest =>
      a < c && c == b && pairsStrictlyAdvancing ((c, d) :: rest)

/-- C1 fails on the code: two successive successful fetches (start date
2025-01-01T00:00:00 as second 0, interval 6 h, no end date) write the
SAME pair `(start, start + 6h)` twice — the fetcher resumes from the
stored `last_run_time`, which it always sets to the window start it just
used, so windows never advance and the spec's strictly-increasing,
contiguous property is violated (the same window is re-fetched forever). -/
theorem fetch_windows_never_advance :
    fetchPairs ⟨0, none, 6, true, 1800⟩ 2 none = [(0, 21600), (0, 21600)] ∧
    pairsStrictlyAdvancing (fetchPairs ⟨0, none, 6, true, 1800⟩ 2 none) = false :=
  ⟨by decide, by decide⟩

/-! ### Claim C3: deterministic AES round trip (utils/encryption.py)

Byte strings are `List Nat` with values < 256.  The AES block cipher
under a fixed key and SHA-256 are library calls
(`cryptography.hazmat`, `hashlib`); they enter the embedding as a
block permutation `E` with inverse `D`, and a digest `H` standing for
`derive_iv` = `SHA256(plaintext)[0:16]`.  Base64 is implemented
concretely.  The theorem instantiates `E`/`D` with an involutive
byte-wise cipher, a legitimate instance of the abstraction, because the
defect it exhibits — deterministic-mode decryption failing to strip the
prepended IV — is independent of the cipher. -/

/-- `algorithms.AES.block_size` in bytes. -/
def blockSize : Nat := 16

/-- PKCS#7 padding (`padder` of utils/encryption.py line 44). -/
def pkcs7pad (data : List Nat) : List Nat :=
  let padLen := blockSize - data.length % blockSize
  data ++ List.replicate padLen padLen

/-- PKCS#7 unpadding (`unpadder` of utils/encryption.py lines 68-69);
`none` is the raised `ValueError` on invalid padding. -/
def pkcs7unpad (data : List Nat) : Option (List Nat) :=
  if data.length = 0 || ¬ data.length % blockSize = 0 then none
  else
    let n := data.getLastD 0
    if n = 0 || blockSize < n then none
    else if (data.drop (data.length - n)).all (fun b => b = n) then
      some (data.take (data.length - n))
    else none

/-- Split a byte string into 16-byte blocks; `fuel` (the list's length
suffices) makes the recursion structural. -/
def toBlocks : Nat → List Nat → List (List Nat)
  | _, [] => []
  | 0, rest => [rest]
  | fuel + 1, rest => rest.take blockSize :: toBlocks fuel (rest.drop blockSize)

/-- CBC encryption of a block list with previous-block chaining. -/
def cbcEncBlocks (E : List Nat → List Nat) (prev : List Nat) :
    List (List Nat) → List (List Nat)
  | [] => []
  | b :: rest =>
      let c := E (List.zipWith Nat.xor b prev)
      c :: cbcEncBlocks E c rest

/-- CBC decryption of a block list. -/
def cbcDecBlocks (D : List Nat → List Nat) (prev : List Nat) :
    List (List Nat) → List (List Nat)
  | [] => []
  | c :: rest => List.zipWith Nat.xor (D c) prev :: cbcDecBlocks D c rest

/-- The base64 alphabet. -/
def b64alphabet : List Char :=
  "ABCDEFGHIJKLMNOPQRSTUVWXYZabcdefghijklmnopqrstuvwxyz0123456789+/".data

/-- Index into the base64 alphabet. -/
def b64chr (i : Nat) : Char := b64alphabet.getD i '?'

/-- `base64.b64encode`, three bytes at a time. -/
def b64chunks : List Nat → List Char
  | [] => []
  | [a] => [b64chr (a / 4), b64chr (a % 4 * 16), '=', '=']
  | [a, b] => [b64chr (a / 4), b64chr (a % 4 * 16 + b / 16), b64chr (b % 16 * 4), '=']
  | a :: b :: c :: rest =>
      b64chr (a / 4) :: b64chr (a % 4 * 16 + b / 16) ::
      b64chr (b % 16 * 4 + c / 64) :: b64chr (c % 64) :: b64chunks rest

/-- `base64.b64encode(...).decode("utf-8")`. -/
def base64encode (bytes : List Nat) : String := String.mk (b64chunks bytes)

/-- Value of one base64 character. -/
def b64val (c : Char) : Option Nat := List.findIdx? (fun a => a == c) b64alphabet

/-- `base64.b64decode`, four characters at a time; `none` is the raised
`binascii.Error`. -/
def b64dechunks : List Char → Option (List Nat)
  | [] => some []
  | [a, b, '=', '='] => do
      let va ← b64val a
      let vb ← b64val b
      pure [va * 4 + vb / 16]
  | [a, b, c, '='] => do
      let va ← b64val a
      let vb ← b64val b
      let vc ← b64val c
      pure [va * 4 + vb / 16, vb % 16 * 16 + vc / 4]
  | a :: b :: c :: d :: rest => do
      let va ← b64val a
      let vb ← b64val b
      let vc ← b64val c
      let vd ← b64val d
      let tail ← b64dechunks rest
      pure ((va * 4 + vb / 16) :: (vb % 16 * 16 + vc / 4) :: (vc % 4 * 64 + vd) :: tail)
  | _ => none

/-- `base64.b64decode` on a string. -/
def base64decode (s : String) : Option (List Nat) := b64dechunks s.data

/-- `aes_encrypt` (src/application/utils/encryption.py lines 42-50) in
deterministic-IV mode (`use_deterministic_aes`, the default): the IV is
`H(plaintext)` = `SHA256(plaintext)[0:16]`, and the function returns
`base64(iv + ciphertext)` — the IV is PREPENDED even in deterministic
mode. -/
def aesEncryptDet (E H : List Nat → List Nat) (plaintext : List Nat) : String :=
  let iv := H plaintext
  let padded := pkcs7pad plaintext
  let ct := (cbcEncBlocks E iv (toBlocks padded.length padded)).flatten
  base64encode (iv ++ ct)

/-- `aes_decrypt` (src/application/utils/encryption.py lines 54-69) in
deterministic-IV mode: the IV is re-derived from the plaintext hint and
the WHOLE base64-decoded payload is taken as ciphertext (`ct = data`,
line 61) — the prepended IV is not stripped, unlike the random-IV
branch (line 63).  An empty hint makes the code log an error and return
the ciphertext string unchanged instead of bytes; that path, like a
raised exception, is `none` here.  The Python function returns BYTES
(no UTF-8 decode), which is why the result is a byte string. -/
def aesDecryptDet (D H : List Nat → List Nat) (ciphertextB64 : String)
    (plaintextHint : List Nat) : Option (List Nat) :=
  match base64decode ciphertextB64 with
  | none => none
  | some data =>
      if plaintextHint.isEmpty then none
      else
        let iv := H plaintextHint
        let ct := data
        let padded := (cbcDecBlocks D iv (toBlocks ct.length ct)).flatten
        pkcs7unpad padded

/-- C3 fails on the code: with the deterministic IV mode, encrypting is
deterministic (first conjunct), but decrypting the encryption of
`"12345"` (bytes `[49, 50, 51, 52, 53]`) with the correct hint does NOT
give the plaintext back: the un-stripped IV block decrypts to 16 bytes
of garbage (`D(iv) ⊕ iv`) prepended to the plaintext.  Instantiated
with the involutive byte-wise cipher `E = D = xor 170` and a stand-in
digest, the result is `[170 × 16] ++ plaintext ≠ plaintext`. -/
theorem deterministic_aes_roundtrip_broken :
    aesEncryptDet (fun b => b.map (fun x => Nat.xor x 170))
        (fun _ => List.replicate 16 7) [49, 50, 51, 52, 53] =
      aesEncryptDet (fun b => b.map (fun x => Nat.xor x 170))
        (fun _ => List.replicate 16 7) [49, 50, 51, 52, 53] ∧
    aesDecryptDet (fun b => b.map (fun x => Nat.xor x 170))
        (fun _ => List.replicate 16 7)
        (aesEncryptDet (fun b => b.map (fun x => Nat.xor x 170))
          (fun _ => List.replicate 16 7) [49, 50, 51, 52, 53])
        [49, 50, 51, 52, 53] =
      some (List.replicate 16 170 ++ [49, 50, 51, 52, 53]) ∧
    ¬ aesDecryptDet (fun b => b.map (fun x => Nat.xor x 170))
        (fun _ => List.replicate 16 7)
        (aesEncryptDet (fun b => b.map (fun x => Nat.xor x 170))
          (fun _ => List.replicate 16 7) [49, 50, 51, 52, 53])
        [49, 50, 51, 52, 53] =
      some [49, 50, 51, 52, 53] :=
  ⟨rfl, by decide, by decide⟩

/-! ### JSON serialisation (`json.dumps` / `json.loads`), used by the
Consent grouper's provision string round-trip -/

/-- JSON string escaping for one character. -/
def jsonEscapeChar (c : Char) : List Char :=
  if c == '"' then ['\\', '"']
  else if c == '\\' then ['\\', '\\']
  else if c == '\n' then ['\\', 'n']
  else if c == '\t' then ['\\', 't']
  else if c == '\r' then ['\\', 'r']
  else [c]

/-- JSON string escaping. -/
def jsonEscape (s : String) : String :=
  String.mk (s.data.foldr (fun c acc => jsonEscapeChar c ++ acc) [])

mutual

/-- `json.dumps(..., ensure_ascii=False)` with the default separators. -/
def jsonDumps : JValue → String
  | .null => "null"
  | .str s => "\"" ++ jsonEscape s ++ "\""
  | .num n => toString n
  | .bool b => if b then "true" else "false"
  | .arr l => "[" ++ jsonDumpsArr l ++ "]"
  | .obj kvs => "\x7b" ++ jsonDumpsObj kvs ++ "\x7d"

/-- `json.dumps` of list elements. -/
def jsonDumpsArr : List JValue → String
  | [] => ""
  | [v] => jsonDumps v
  | v :: rest => jsonDumps v ++ ", " ++ jsonDumpsArr rest

/-- `json.dumps` of object members. -/
def jsonDumpsObj : List (String × JValue) → String
  | [] => ""
  | [(k, v)] => "\"" ++ jsonEscape k ++ "\": " ++ jsonDumps v
  | (k, v) :: rest =>
      "\"" ++ jsonEscape k ++ "\": " ++ jsonDumps v ++ ", " ++ jsonDumpsObj rest

end

/-- Skip JSON whitespace. -/
def jsonWs (cs : List Char) : List Char :=
  cs.dropWhile (fun c => c == ' ' || c == '\n' || c == '\t' || c == '\r')

/-- Parse the remainder of a JSON string literal (opening quote already
consumed): the decoded characters and the rest of the input. -/
def jpStringChars : Nat → List Char → Option (List Char × List Char)
  | _, '"' :: rest => some ([], rest)
  | fuel + 1, '\\' :: e :: rest => do
      let c ← (if e == '"' then some '"'
        else if e == '\\' then some '\\'
        else if e == '/' then some '/'
        else if e == 'n' then some '\n'
        else if e == 't' then some '\t'
        else if e == 'r' then some '\r'
        else if e == 'b' then some (Char.ofNat 8)
        else if e == 'f' then some (Char.ofNat 12)
        else none)
      let (tail, rem) ← jpStringChars fuel rest
      pure (c :: tail, rem)
  | fuel + 1, c :: rest => do
      let (tail, rem) ← jpStringChars fuel rest
      pure (c :: tail, rem)
  | _, _ => none

mutual

/-- Parse one JSON value; `fuel` bounds the recursion. -/
def jpValue : Nat → List Char → Option (JValue × List Char)
  | 0, _ => none
  | fuel + 1, cs =>
    match jsonWs cs with
    | 'n' :: 'u' :: 'l' :: 'l' :: rest => some (.null, rest)
    | 't' :: 'r' :: 'u' :: 'e' :: rest => some (.bool true, rest)
    | 'f' :: 'a' :: 'l' :: 's' :: 'e' :: rest => some (.bool false, rest)
    | '"' :: rest =>
        (jpStringChars (rest.length + 1) rest).map
          (fun p => (.str (String.mk p.fst), p.snd))
    | '[' :: rest =>
        (match jsonWs rest with
         | ']' :: rem => some (.arr [], rem)
         | _ => (jpElems fuel rest).map (fun p => (.arr p.fst, p.snd)))
    | '\x7b' :: rest =>
        (match jsonWs rest with
         | '\x7d' :: rem => some (.obj [], rem)
         | _ => (jpMembers fuel rest).map (fun p => (.obj p.fst, p.snd)))
    | '-' :: rest =>
        (match parseNatField 100 rest with
         | some (n, rem) => some (.num (-(n : Int)), rem)
         | none => none)
    | c :: rest =>
        if isDigitChar c then
          match parseNatField 100 (c :: rest) with
          | some (n, rem) => some (.num (n : Int), rem)
          | none => none
        else none
    | [] => none

/-- Parse the elements of a non-empty JSON array (opening bracket
consumed). -/
def jpElems : Nat → List Char → Option (List JValue × List Char)
  | 0, _ => none
  | fuel + 1, cs => do
      let (v, rem) ← jpValue fuel cs
      match jsonWs rem with
      | ',' :: rem2 => do
          let (tail, rem3) ← jpElems fuel rem2
          pure (v :: tail, rem3)
      | ']' :: rem2 => pure ([v], rem2)
      | _ => none

/-- Parse the members of a non-empty JSON object (opening brace
consumed). -/
def jpMembers : Nat → List Char → Option (List (String × JValue) × List Char)
  | 0, _ => none
  | fuel + 1, cs =>
    match jsonWs cs with
    | '"' :: rest => do
        let (kcs, rem) ← jpStringChars (rest.length + 1) rest
        match jsonWs rem with
        | ':' :: rem2 => do
            let (v, rem3) ← jpValue fuel rem2
            match jsonWs rem3 with
            | ',' :: rem4 => do
                let (tail, rem5) ← jpMembers fuel rem4
                pure ((String.mk kcs, v) :: tail, rem5)
            | '\x7d' :: rem4 => pure ([(String.mk kcs, v)], rem4)
            | _ => none
        | _ => none
    | _ => none

end

/-- `json.loads`; `none` is the raised decode error. -/
def jsonLoads (s : String) : Option JValue :=
  match jpValue (2 * s.data.length + 2) s.data with
  | some (v, rem) => if (jsonWs rem).isEmpty then some v else none
  | none => none

/-! ### Consent grouping and mapping (utils/mapper_consent.py,
utils/central_processor_consent.py) -/

/-- The provision columns excluded when copying the first row of a group
into the base record (src/application/utils/mapper_consent.py lines
48-49). -/
def consentExcludedKeys : List String :=
  ["provision_type", "consent_code", "consent_code_system",
   "start_time", "end_time", "consent", "uri_einwilligungsnachweis"]

/-- `record.get(group_by, "").strip()`: the group key of one record.
Staging values are TEXT, so only strings (or a missing key) occur. -/
def consentKeyOf (groupBy : String) (r : List (String × JValue)) : String :=
  match recGet r groupBy with
  | some (.str s) => pyStrip s
  | _ => ""

/-- `fix_fhir_datetime` (Consent variant) applied to an optional record
value, as `group_provisions` does. -/
def consentDateJ (v : Option JValue) : JValue :=
  match v with
  | some (.str s) =>
      (match fixFhirDatetimeConsent s with
       | some r => .str r
       | none => .null)
  | _ => .null

/-- The fixed canonical system of `code.coding` in a provision
(src/application/utils/mapper_consent.py line 61). -/
def miiConsentCodeSystem : String :=
  "https://www.medizininformatik-initiative.de/fhir/modul-consent/CodeSystem/mii-cs-consent-consent_code"

/-- One provision entry built from one record (lines 52-75): `period.end`
is added only when the normalised end time is truthy. -/
def provisionOf (item : List (String × JValue)) : JValue :=
  let startv := consentDateJ (recGet item "start_time")
  let endv := consentDateJ (recGet item "end_time")
  let period :=
    if pyTruthy endv then
      JValue.obj [("start", startv), ("end", endv)]
    else JValue.obj [("start", startv)]
  .obj [("type", (recGet item "provision_type").getD .null),
        ("period", period),
        ("code", .obj [("coding", .arr
          [.obj [("system", .str miiConsentCodeSystem),
                 ("code", (recGet item "consent_code").getD .null),
                 ("display", (recGet item "consent").getD .null)]])]),
        ("sourceAttachment", .obj
          [("url", (recGet item "uri_einwilligungsnachweis").getD .null)])]

/-- The distinct non-empty group keys in first-occurrence order
(`defaultdict` + dict insertion order). -/
def consentGroupKeys (groupBy : String) (records : List (List (String × JValue))) :
    List String :=
  records.foldl
    (fun acc r =>
      let k := consentKeyOf groupBy r
      if k = "" ∨ k ∈ acc then acc else acc ++ [k])
    []

/-- The records of one group, in arrival order. -/
def consentGroupOf (groupBy : String) (records : List (List (String × JValue)))
    (k : String) : List (List (String × JValue)) :=
  records.filter (fun r => consentKeyOf groupBy r = k)

/-- The merged base record of one group (lines 44-75): start from
`{group_by: key, provision_list: []}`, copy the first record's
non-provision columns (which may overwrite `provision_list` when the
input record already carries one), then append one provision per record
of the group. -/
def buildConsentBase (groupBy k : String)
    (group : List (List (String × JValue))) : List (String × JValue) :=
  let base0 : List (String × JValue) := [(groupBy, .str k), ("provision_list", .arr [])]
  let base1 := (group.headD []).foldl
    (fun acc kv =>
      if kv.fst ∈ consentExcludedKeys then acc else recSet acc kv.fst kv.snd)
    base0
  group.foldl
    (fun acc item =>
      let cur := match recGet acc "provision_list" with
        | some (.arr l) => l
        | _ => []
      recSet acc "provision_list" (.arr (cur ++ [provisionOf item])))
    base1

/-- `group_provisions` (src/application/utils/mapper_consent.py lines
30-82). -/
def groupProvisions (groupBy : String)
    (records : List (List (String × JValue))) : List (List (String × JValue)) :=
  (consentGroupKeys groupBy records).map
    (fun k => buildConsentBase groupBy k (consentGroupOf groupBy records k))

/-- `data["consent_type"].strip().lower().replace(" ", "-")` (line 100). -/
def normConsentType (v : JValue) : JValue :=
  match v with
  | .str s => .str (String.mk ((lowerAscii (pyStrip s)).data.map
      (fun c => if c == ' ' then '-' else c)))
  | w => w

/-- The Consent-variant datetime fix on a rendered value, used for the
`dateTime` key (line 130). -/
def consentDateOfJ (v : JValue) : JValue :=
  match v with
  | .str s =>
      (match fixFhirDatetimeConsent s with
       | some r => .str r
       | none => .null)
  | _ => .null

/-- `map_consent_resources` (src/application/utils/mapper_consent.py lines
84-150).  NOTE: its first step `group_provisions(records)` runs on
records that the caller (`process_consent_resources`) has ALREADY
grouped. -/
def mapConsentResources (template : List (String × JValue))
    (required : List String) (groupBy : String)
    (records : List (List (String × JValue))) : List JValue :=
  let grouped := groupProvisions groupBy records
  grouped.filterMap (fun data0 =>
    let data1 :=
      if recHas data0 "consent_type" then
        recSet data0 "consent_type" (normConsentType ((recGet data0 "consent_type").getD .null))
      else data0
    let provisionList := match recGet data1 "provision_list" with
      | some (.arr l) => l
      | _ => []
    let startv := consentDateJ (recGet data1 "start_time")
    let endv := consentDateJ (recGet data1 "end_time")
    let periodPart : List (String × JValue) :=
      if pyTruthy startv then
        [("period", if pyTruthy endv then
            JValue.obj [("start", startv), ("end", endv)]
          else JValue.obj [("start", startv)])]
      else []
    let topProvision : JValue := .obj
      ([("type", (recGet data1 "provision_type").getD (.str "permit")),
        ("provision", .arr provisionList)] ++ periodPart)
    let data2 := recSet data1 "provision" (.str (jsonDumps topProvision))
    let missing := required.filter (fun f => !pyTruthy ((recGet data2 f).getD .null))
    if !missing.isEmpty then none
    else
      let resource0 := resolveValueObj data2 template
      let resource1 :=
        if recHas resource0 "dateTime" then
          recSet resource0 "dateTime" (consentDateOfJ ((recGet resource0 "dateTime").getD .null))
        else resource0
      let resource2 :=
        match recGet resource1 "provision" with
        | some (.str s) =>
            (match jsonLoads s with
             | some v => recSet resource1 "provision" v
             | none => resource1)
        | _ => resource1
      let resource3 := fixSystemUris resource2
      match cleanSection (.obj resource3) with
      | .obj kvs => some (.obj kvs)
      | _ => none)

/-- `SERIAL` / `AUTOINCREMENT` id for a new queue row. -/
def nextQueueId (db : Db) : Nat :=
  (db.queue.map (fun r => r.id)).foldr Nat.max 0 + 1

/-- `mark_consent_as_processed_by_composition`
(src/application/utils/db_consent.py lines 78-95): set `processed` on the
consent staging rows with this `composition_id`. -/
def markConsentStagingProcessed (compositionId : String) (db : Db) : Db :=
  { db with staging := db.staging.map (fun sr =>
      if sr.table = "consent" ∧ sr.group = compositionId then
        { sr with processed := true }
      else sr) }

/-- `process_consent_resources`
(src/application/utils/central_processor_consent.py lines 83-123): group
the batch, map it (which groups it a second time), then for each mapped
resource with a truthy `id` insert a queue row keyed by that id and mark
the staging rows of the group processed. -/
def processConsentResources (kind : DbKind) (template : List (String × JValue))
    (required : List String) (groupBy : String) (db : Db)
    (batch : List (List (String × JValue))) : Db :=
  if template.isEmpty then db
  else if batch.isEmpty then db
  else
    let grouped := groupProvisions groupBy batch
    if grouped.isEmpty then db
    else
      let mapped := mapConsentResources template required groupBy grouped
      mapped.foldl
        (fun acc resource =>
          let cid := match resource with
            | .obj kvs => (recGet kvs "id").getD .null
            | _ => .null
          if !pyTruthy cid then acc
          else match cid with
            | .str s =>
                markConsentStagingProcessed s
                  (insertIntoFhirQueueConsent kind (nextQueueId acc) acc "Consent" s resource)
            | _ => acc)
        db

/-! ### Claim C4: one Consent per group key, provision counts -/

/-- Modelled from the spec: the Consent mapping template.  The per-resource
YAML mapping files (`conf/resources/*.yml`) are configuration outside
src/; per §3 and §8 scenario 2 the template renders `id` and
`identifier[0].value` from the group key (`composition_id`) and passes
the grouper's `provision` string through. -/
def consentTemplateModel : List (String × JValue) :=
  [("resourceType", .str "Consent"),
   ("id", .str "\x7b\x7bcomposition_id\x7d\x7d"),
   ("identifier", .arr [.obj [("value", .str "\x7b\x7bcomposition_id\x7d\x7d")]]),
   ("provision", .str "\x7b\x7bprovision\x7d\x7d")]

/-- Modelled from the spec: the Consent `required_fields` configuration —
the group key must be present. -/
def consentRequiredModel : List String := ["composition_id"]

/-- Number of provisions in an emitted Consent resource
(`provision.provision` of the queue row's resource data). -/
def provisionCount (v : JValue) : Nat :=
  match v with
  | .obj kvs =>
      (match recGet kvs "provision" with
       | some (.obj pkvs) =>
           (match recGet pkvs "provision" with
            | some (.arr l) => l.length
            | _ => 0)
       | _ => 0)
  | _ => 0

set_option maxRecDepth 10000

/-- C4 fails on the code: for the claim's own example — Consent staging
rows `[(cid=A, permit, C1), (cid=A, permit, C2), (cid=B, deny, C3)]` —
the pipeline does emit one queue row per group key (identifiers A and
B, no duplicates), but the provision counts are 3 and 2, not 2 and 1:
`map_consent_resources` calls `group_provisions` on records that
`process_consent_resources` has already grouped, and the second pass
appends one extra provision per group, built from the base record's
missing provision columns, which survives cleaning as
`{code: {coding: [{system: <canonical consent system>}]}}`. -/
theorem consent_double_grouping_extra_provision :
    ((processConsentResources .sqlite consentTemplateModel consentRequiredModel
        "composition_id" ⟨[], []⟩
        [[("composition_id", .str "A"), ("provision_type", .str "permit"),
          ("consent_code", .str "C1")],
         [("composition_id", .str "A"), ("provision_type", .str "permit"),
          ("consent_code", .str "C2")],
         [("composition_id", .str "B"), ("provision_type", .str "deny"),
          ("consent_code", .str "C3")]]).queue.map
      (fun r => (r.identifier, provisionCount r.resourceData))) =
      [("A", 3), ("B", 2)] ∧
    ¬ ((processConsentResources .sqlite consentTemplateModel consentRequiredModel
        "composition_id" ⟨[], []⟩
        [[("composition_id", .str "A"), ("provision_type", .str "permit"),
          ("consent_code", .str "C1")],
         [("composition_id", .str "A"), ("provision_type", .str "permit"),
          ("consent_code", .str "C2")],
         [("composition_id", .str "B"), ("provision_type", .str "deny"),
          ("consent_code", .str "C3")]]).queue.map
      (fun r => (r.identifier, provisionCount r.resourceData))) =
      [("A", 2), ("B", 1)] :=
  ⟨by decide, by decide⟩

end ALUR
